import Mathlib

/-!
# loglens_go: a shallow embedding of `loglens.go`

The Go package formats a structured log record (`Log` / `LogSource`), stamps it
with a timestamp, the host name and a random id, serialises it with
`encoding/json` and hands the text to a scribe transport.

Go strings are byte sequences, so they are modelled as `List Byte` with
`Byte = Fin 256`.  The standard-library routines the package calls
(`fmt.Sprintf` with `%x`, `time.Time.Format`, `strings.Replace`,
`json.Marshal`) are modelled here at the instances the package uses.
-/

set_option maxRecDepth 100000

namespace Loglens

/-! ## Bytes and strings -/

/-- A Go `byte`. -/
abbrev Byte := Fin 256

/-- A Go `string`: an immutable sequence of bytes (not necessarily valid UTF-8). -/
abbrev GoString := List Byte

/-- The byte of an ASCII character. -/
def byteOf (c : Char) : Byte := Fin.ofNat c.toNat

/-- The Go string of an ASCII literal. -/
def ascii (s : String) : GoString := s.toList.map byteOf

/-! ## `fmt.Sprintf("%08x-%04x-%04x-%04x-%012x", ...)` and `createUuid` -/

/-- The digit table of package fmt: `ldigits = "0123456789abcdefx"`, indexed by a nibble. -/
def ldigits (n : Nat) : Byte :=
  if n < 10 then Fin.ofNat (48 + n) else Fin.ofNat (87 + n)

/-- The verb `%x` on a byte slice (fmt's `fmtSbx` without `#`, space or precision):
    two lowercase hex digits per byte, high nibble first. -/
def fmtSbx : List Byte → GoString
  | [] => []
  | c :: rest => ldigits (c.val >>> 4) :: ldigits (c.val &&& 0xF) :: fmtSbx rest

/-- Left padding with `'0'` up to `width` (the `0` flag with a width). -/
def writePadding (width : Nat) (s : GoString) : GoString :=
  List.replicate (width - s.length) (byteOf '0') ++ s

/-- The verb `%0<width>x` applied to a byte slice. -/
def fmtHex (width : Nat) (b : List Byte) : GoString :=
  writePadding width (fmtSbx b)

/-- Go slice expression `b[lo:hi]`. -/
def slice (b : List Byte) (lo hi : Nat) : List Byte := (b.take hi).drop lo

/-- The buffer `b` after `b := make([]byte, 16); f.Read(b)`.
    `urandom = none` stands for `os.Open("/dev/urandom")` having failed (the
    error is discarded, `f` is nil, `f.Read` returns `ErrInvalid` and leaves `b`
    untouched); `some data` stands for a read that delivered `data`, of which at
    most 16 bytes fit.  Bytes that were not read keep their zero value. -/
def readUrandom (urandom : Option (List Byte)) : List Byte :=
  match urandom with
  | none => List.replicate 16 0
  | some data => data.take 16 ++ List.replicate (16 - data.length) 0

/-- `createUuid` of `loglens.go`. -/
def createUuid (urandom : Option (List Byte)) : GoString :=
  let b := readUrandom urandom
  fmtHex 8 (slice b 0 4) ++ ascii "-" ++ fmtHex 4 (slice b 4 6) ++ ascii "-" ++
    fmtHex 4 (slice b 6 8) ++ ascii "-" ++ fmtHex 4 (slice b 8 10) ++ ascii "-" ++
    fmtHex 12 (b.drop 10)

/-! ## `time.Now().UTC().Format(time.RFC3339)` -/

/-- Constant `secondsPerDay` of package time. -/
def secondsPerDay : Nat := 86400
/-- Constant `daysPer400Years` of package time. -/
def daysPer400Years : Nat := 365 * 400 + 97
/-- Constant `daysPer100Years` of package time. -/
def daysPer100Years : Nat := 365 * 100 + 24
/-- Constant `daysPer4Years` of package time. -/
def daysPer4Years : Nat := 365 * 4 + 1
/-- Constant `absoluteZeroYear` of package time. -/
def absoluteZeroYear : Int := -292277022399
/-- The sum `unixToInternal + internalToAbsolute` of package time. -/
def unixToAbsolute : Int := 62135596800 + 9223371966579724800

/-- An instant as package time sees it in UTC: `t.abs()`, the seconds since the
    absolute zero year, a `uint64` computed from the Unix seconds. -/
def absSeconds (unix : Int) : Nat := ((unix + unixToAbsolute) % (2 ^ 64 : Int)).toNat

/-- Function `isLeap` of package time. -/
def isLeap (year : Int) : Bool :=
  year % 4 == 0 && (year % 100 != 0 || year % 400 == 0)

/-- Table `daysBefore` of package time: days before the start of month `m`
    (0 = January) in a non-leap year. -/
def daysBefore (m : Nat) : Nat :=
  [0, 31, 59, 90, 120, 151, 181, 212, 243, 273, 304, 334, 365].getD m 0

/-- The year and the day within the year of `absDate` (its first part, before
    `if !full`), as written in Go up to 1.22; later releases compute the same
    date by another route. -/
def absYearDay (abs : Nat) : Int × Nat :=
  let d := abs / secondsPerDay
  -- Account for 400 year cycles.
  let n := d / daysPer400Years
  let y := 400 * n
  let d := d - daysPer400Years * n
  -- Cut off 100-year cycles.
  let n := d / daysPer100Years
  let n := n - (n >>> 2)
  let y := y + 100 * n
  let d := d - daysPer100Years * n
  -- Cut off 4-year cycles.
  let n := d / daysPer4Years
  let y := y + 4 * n
  let d := d - daysPer4Years * n
  -- Cut off years within a 4-year cycle.
  let n := d / 365
  let n := n - (n >>> 2)
  let y := y + n
  let d := d - 365 * n
  ((y : Int) + absoluteZeroYear, d)

/-- The month (1 = January) and day of the month of `absDate` from the year and
    the day within the year (its second part). -/
def monthDay (year : Int) (yday : Nat) : Nat × Nat :=
  if isLeap year && yday == 31 + 29 - 1 then
    (2, 29)
  else
    let day := if isLeap year && yday > 31 + 29 - 1 then yday - 1 else yday
    let month := day / 31
    let endDay := daysBefore (month + 1)
    if day ≥ endDay then
      (month + 1 + 1, day - endDay + 1)
    else
      (month + 1, day - daysBefore month + 1)

/-- Function `absDate(abs, true)` of package time: year, month, day. -/
def absDate (abs : Nat) : Int × Nat × Nat :=
  let yd := absYearDay abs
  (yd.1, monthDay yd.1 yd.2)

/-- Function `absClock` of package time: hour, minute, second. -/
def absClock (abs : Nat) : Nat × Nat × Nat :=
  let sec := abs % secondsPerDay
  let hour := sec / 3600
  let sec := sec - hour * 3600
  let min := sec / 60
  let sec := sec - min * 60
  (hour, min, sec)

/-- One decimal digit as a byte. -/
def digit (n : Nat) : Byte := Fin.ofNat (48 + n % 10)

/-- Function `appendInt` of package time: the decimal text of `x`, zero-padded to
    `width` digits, with a leading `-` for a negative value.  The two fast paths
    (two- and four-digit fields) are those of the source. -/
def appendInt (x : Int) (width : Nat) : GoString :=
  let sign : GoString := if x < 0 then ascii "-" else []
  let u := x.natAbs
  if width = 2 ∧ u < 100 then
    sign ++ [digit (u / 10), digit u]
  else if width = 4 ∧ u < 10000 then
    sign ++ [digit (u / 100 / 10), digit (u / 100), digit (u % 100 / 10), digit (u % 100)]
  else
    let ds := (Nat.toDigits 10 u).map byteOf
    sign ++ List.replicate (width - ds.length) (byteOf '0') ++ ds

/-- Method `appendFormatRFC3339(b, false)` of `time.Time` at a UTC time, which is
    what `Format(time.RFC3339)` calls: `2006-01-02T15:04:05Z`. -/
def formatRFC3339 (unix : Int) : GoString :=
  let abs := absSeconds unix
  let (year, month, day) := absDate abs
  let (hour, min, sec) := absClock abs
  appendInt year 4 ++ ascii "-" ++ appendInt month 2 ++ ascii "-" ++ appendInt day 2 ++
    ascii "T" ++ appendInt hour 2 ++ ascii ":" ++ appendInt min 2 ++ ascii ":" ++
    appendInt sec 2 ++ ascii "Z"

/-! ## `strings.Replace` -/

/-- Function `strings.HasPrefix`. -/
def hasPrefix : GoString → GoString → Bool
  | _, [] => true
  | [], _ :: _ => false
  | a :: s, b :: p => a == b && hasPrefix s p

/-- Function `strings.Index`: the position of the first instance of `substr` in
    `s`, or `none` (Go: `-1`) when there is none. -/
def stringsIndex : GoString → GoString → Option Nat
  | [], substr => if hasPrefix [] substr then some 0 else none
  | a :: s, substr =>
    if hasPrefix (a :: s) substr then some 0
    else (stringsIndex s substr).map (· + 1)

/-- Function `strings.Replace(s, old, new, n)` for `n ≥ 0` and a non-empty `old`:
    the first `n` non-overlapping instances of `old` are replaced by `new`. -/
def stringsReplace (s old new : GoString) : Nat → GoString
  | 0 => s
  | n + 1 =>
    if old = new then s
    else
      match stringsIndex s old with
      | none => s
      | some j => s.take j ++ new ++ stringsReplace (s.drop (j + old.length)) old new n

/-! ## `encoding/json`: strings -/

/-- Constant `utf8.RuneError`. -/
def runeError : Nat := 0xFFFD
/-- Constant `utf8.RuneSelf`. -/
def runeSelf : Nat := 0x80
/-- Constant `utf8.UTFMax`. -/
def utfMax : Nat := 4

/-- Table `first` of package unicode/utf8: information about the first byte of
    a UTF-8 sequence (`as = 0xF0`, `xx = 0xF1`, otherwise accept-range index in
    the high nibble and size in the low one). -/
def first (b : Byte) : Nat :=
  if b.val < 0x80 then 0xF0
  else if b.val < 0xC2 then 0xF1
  else if b.val < 0xE0 then 0x02
  else if b.val = 0xE0 then 0x13
  else if b.val < 0xED then 0x03
  else if b.val = 0xED then 0x23
  else if b.val < 0xF0 then 0x03
  else if b.val = 0xF0 then 0x34
  else if b.val < 0xF4 then 0x04
  else if b.val = 0xF4 then 0x44
  else 0xF1

/-- Table `acceptRanges` of package unicode/utf8: the range allowed for the
    second byte. -/
def acceptRanges (i : Nat) : Nat × Nat :=
  match i with
  | 0 => (0x80, 0xBF)
  | 1 => (0xA0, 0xBF)
  | 2 => (0x80, 0x9F)
  | 3 => (0x90, 0xBF)
  | 4 => (0x80, 0x8F)
  | _ => (0, 0)

/-- Function `utf8.DecodeRuneInString`: the first rune of `s` and its width in
    bytes; `(RuneError, 1)` for an invalid encoding, `(RuneError, 0)` for the
    empty string. -/
def decodeRuneInString (s : GoString) : Nat × Nat :=
  match s with
  | [] => (runeError, 0)
  | s0 :: t =>
    let x := first s0
    if x ≥ 0xF0 then
      (if x = 0xF0 then s0.val else runeError, 1)
    else
      let sz := x &&& 7
      let accept := acceptRanges (x >>> 4)
      if s.length < sz then (runeError, 1)
      else
        match t with
        | [] => (runeError, 1)
        | s1 :: t =>
          if s1.val < accept.1 ∨ accept.2 < s1.val then (runeError, 1)
          else if sz ≤ 2 then ((s0.val &&& 0x1F) <<< 6 ||| (s1.val &&& 0x3F), 2)
          else
            match t with
            | [] => (runeError, 1)
            | s2 :: t =>
              if s2.val < 0x80 ∨ 0xBF < s2.val then (runeError, 1)
              else if sz ≤ 3 then
                ((s0.val &&& 0x0F) <<< 12 ||| (s1.val &&& 0x3F) <<< 6 ||| (s2.val &&& 0x3F), 3)
              else
                match t with
                | [] => (runeError, 1)
                | s3 :: _ =>
                  if s3.val < 0x80 ∨ 0xBF < s3.val then (runeError, 1)
                  else
                    ((s0.val &&& 0x07) <<< 18 ||| (s1.val &&& 0x3F) <<< 12 |||
                      (s2.val &&& 0x3F) <<< 6 ||| (s3.val &&& 0x3F), 4)

/-- Table `htmlSafeSet` of encoding/json: the ASCII bytes that are written to a
    JSON string as they are when HTML escaping is on (as it is in
    `json.Marshal`): everything from space to DEL except the double quote, the
    backslash and the three characters escaped for HTML. -/
def htmlSafeSet (b : Byte) : Bool :=
  0x20 ≤ b.val && b.val < 0x80 && b != byteOf '"' && b != byteOf '\\' &&
    b != byteOf '<' && b != byteOf '>' && b != byteOf '&'

/-- The escape sequence `appendString` writes for an ASCII byte outside
    `htmlSafeSet` (the `switch b` of the source, with the short forms `\b` and
    `\f` of current Go; older releases wrote these two as `\u0008`, `\u000c`). -/
def escapeByte (b : Byte) : GoString :=
  if b = byteOf '\\' ∨ b = byteOf '"' then [byteOf '\\', b]
  else if b.val = 0x08 then ascii "\\b"
  else if b.val = 0x0C then ascii "\\f"
  else if b = byteOf '\n' then ascii "\\n"
  else if b = byteOf '\r' then ascii "\\r"
  else if b = byteOf '\t' then ascii "\\t"
  else ascii "\\u00" ++ [ldigits (b.val >>> 4), ldigits (b.val &&& 0xF)]

/-- The loop of encoding/json's `appendString(dst, src, true)`: what is written
    between the two quotes.  `fuel` bounds the number of iterations; every
    iteration consumes at least one byte, so `src.length` is enough. -/
def appendStringLoop : Nat → GoString → GoString
  | 0, _ => []
  | _ + 1, [] => []
  | fuel + 1, b :: rest =>
    if b.val < runeSelf then
      if htmlSafeSet b then b :: appendStringLoop fuel rest
      else escapeByte b ++ appendStringLoop fuel rest
    else
      let cs := decodeRuneInString ((b :: rest).take utfMax)
      if cs.1 = runeError ∧ cs.2 = 1 then
        ascii "\\ufffd" ++ appendStringLoop fuel rest
      else if cs.1 = 0x2028 ∨ cs.1 = 0x2029 then
        ascii "\\u202" ++ [ldigits (cs.1 &&& 0xF)] ++
          appendStringLoop fuel ((b :: rest).drop cs.2)
      else
        (b :: rest).take cs.2 ++ appendStringLoop fuel ((b :: rest).drop cs.2)

/-- Function `appendString(dst, src, escapeHTML = true)` of encoding/json: the
    JSON string literal for a Go string. -/
def appendString (src : GoString) : GoString :=
  ascii "\"" ++ appendStringLoop src.length src ++ ascii "\""

/-! ## `encoding/json`: structs -/

/-- One entry of the field list encoding/json builds for a struct type, together
    with what the struct encoder needs of the field's value. -/
structure Field where
  /-- the key given by the `json:"..."` tag -/
  name : GoString
  /-- the tag carries `,omitempty` -/
  omitEmpty : Bool
  /-- `isEmptyValue` of the field's value (a string: its length is 0) -/
  isEmptyValue : Bool
  /-- what the field's encoder writes for the value -/
  encoded : GoString

/-- The loop of `structEncoder.encode`: `next` is `'{'` until the first field is
    written and `','` afterwards; a field with `omitempty` and an empty value is
    skipped; each written field is `next`, the quoted key, a colon and the
    encoded value.  (The keys of this package need no escaping.) -/
def structEncode (next : Byte) : List Field → GoString
  | [] => if next = byteOf '{' then ascii "\x7b\x7d" else ascii "\x7d"
  | f :: fs =>
    if f.omitEmpty && f.isEmptyValue then structEncode next fs
    else
      [next] ++ ascii "\"" ++ f.name ++ ascii "\":" ++ f.encoded ++
        structEncode (byteOf ',') fs

/-- A field of Go type `string`: empty when its length is 0, encoded by
    `appendString`. -/
def stringField (name : String) (omitEmpty : Bool) (v : GoString) : Field :=
  { name := ascii name, omitEmpty := omitEmpty, isEmptyValue := v.isEmpty,
    encoded := appendString v }

/-! ## The data model of `loglens.go` -/

/-- Go struct `logSourceGenerated` (embedded in `LogSource`). -/
structure logSourceGenerated where
  Hostname : GoString
  Timestamp : GoString
deriving DecidableEq

/-- Go struct `LogSource`. -/
structure LogSource extends logSourceGenerated where
  Message : GoString
  Tag : GoString
  Type_ : GoString
  Username : GoString
deriving DecidableEq

/-- Go struct `logId` (embedded in `Log`). -/
structure logId where
  Id : GoString
deriving DecidableEq

/-- Go struct `Log`; `Source` is a pointer, `none` is nil. -/
structure Log extends logId where
  Index : GoString
  Source : Option LogSource
  Type_ : GoString
deriving DecidableEq

/-- The field list of `LogSource` in the order encoding/json uses (by index
    sequence: the four declared fields, then the promoted fields of the embedded
    `logSourceGenerated`). -/
def logSourceFields (s : LogSource) : List Field :=
  [ stringField "message" false s.Message,
    stringField "tag" true s.Tag,
    stringField "type" true s.Type_,
    stringField "username" true s.Username,
    stringField "hostname" false s.Hostname,
    stringField "@timestamp" false s.Timestamp ]

/-- `json.Marshal` of a `LogSource`. -/
def marshalLogSource (s : LogSource) : GoString :=
  structEncode (byteOf '{') (logSourceFields s)

/-- The field list of `Log`: index, source, type, then the promoted `id`.  The
    pointer field `Source` is encoded as `null` when nil and as the struct it
    points to otherwise. -/
def logFields (log : Log) : List Field :=
  [ stringField "index" false log.Index,
    { name := ascii "source", omitEmpty := false, isEmptyValue := log.Source.isNone,
      encoded := match log.Source with
        | none => ascii "null"
        | some s => marshalLogSource s },
    stringField "type" false log.Type_,
    stringField "id" false log.Id ]

/-- `json.Marshal(log)` for a `*Log` (it cannot fail on this type: every leaf is
    a string). -/
def marshalLog (log : Log) : GoString :=
  structEncode (byteOf '{') (logFields log)

/-! ## The client -/

/-- Go struct `scribe.LogEntry`. -/
structure LogEntry where
  Category : GoString
  Message : GoString
deriving DecidableEq

/-- Go type `scribe.ResultCode` (an integer enumeration). -/
abbrev ResultCode := Int

/-- A Go `error` value: `none` is nil. -/
abbrev GoError := Option GoString

/-- The scribe transport, an external collaborator: `Log` is the RPC
    `ScribeClient.Log(messages)`, which answers with a result code and an
    error. -/
structure ScribeClient where
  Log : List LogEntry → ResultCode × GoError

/-- Go struct `LoglensClient`. -/
structure LoglensClient where
  Category : GoString
  Scribe : ScribeClient

/-- What a call reads from its surroundings. -/
structure Env where
  /-- `time.Now()`, in seconds since the Unix epoch -/
  now : Int
  /-- `os.Hostname()`: `none` when it returns an error (the name is then `""`) -/
  hostname : Option GoString
  /-- `/dev/urandom`: `none` when it cannot be opened, else the bytes a read
      delivers -/
  urandom : Option (List Byte)

/-- What a call of a sending method leaves behind. -/
structure Outcome where
  /-- the record the caller's pointer refers to, after the call -/
  log : Log
  /-- the lines written to standard output -/
  stdout : List GoString
  /-- the calls of `Scribe.Log`, in order, each with its argument -/
  calls : List (List LogEntry)
  /-- the returned result code -/
  r : ResultCode
  /-- the returned error -/
  err : GoError

/-- Method `RawLog`: one call of the transport with a single entry. -/
def LoglensClient.RawLog (l : LoglensClient) (message : GoString) :
    List (List LogEntry) × ResultCode × GoError :=
  let entries : List LogEntry := [{ Category := l.Category, Message := message }]
  ([entries], l.Scribe.Log entries)

/-- Method `Log`.  `none` is the run-time panic of dereferencing a nil
    `log.Source`. -/
def LoglensClient.Log (l : LoglensClient) (env : Env) (log : Log) : Option Outcome :=
  match log.Source with
  | none => none
  | some src =>
    -- create the timestamp so we can show it to STDOUT
    let src := { src with
      Timestamp := stringsReplace (formatRFC3339 env.now) (ascii "Z") (ascii ".000") 1 }
    let line := ascii "[" ++ src.Timestamp ++ ascii " " ++ log.Type_ ++ ascii "] " ++
      src.Message ++ ascii "\n"
    -- create private struct values
    let src := { src with Hostname := env.hostname.getD [] }
    let log := { log with Source := some src, Id := createUuid env.urandom }
    let message := marshalLog log
    let sent := l.RawLog message
    some { log := log, stdout := [line], calls := sent.1, r := sent.2.1, err := sent.2.2 }

/-- Method `Info`. -/
def LoglensClient.Info (l : LoglensClient) (env : Env) (log : Loglens.Log) : Option Outcome :=
  l.Log env { log with Type_ := ascii "INFO" }

/-- Method `Error`. -/
def LoglensClient.Error (l : LoglensClient) (env : Env) (log : Loglens.Log) : Option Outcome :=
  l.Log env { log with Type_ := ascii "ERROR" }

/-- Method `Warn`. -/
def LoglensClient.Warn (l : LoglensClient) (env : Env) (log : Loglens.Log) : Option Outcome :=
  l.Log env { log with Type_ := ascii "WARN" }

/-- Method `SimpleLog`: the other fields of the fresh record have their zero
    value, the empty string. -/
def LoglensClient.SimpleLog (l : LoglensClient) (env : Env)
    (logType message index : GoString) : Option Outcome :=
  l.Log env
    { Index := index, Type_ := logType, Id := [],
      Source := some { Message := message, Tag := [], Type_ := [], Username := [],
                       Hostname := [], Timestamp := [] } }

/-- A transport that always answers `OK` (0) without error. -/
def okScribe : ScribeClient := { Log := fun _ => (0, none) }

/-- The client of `LoglensClientFactory("loglens", ...)` over `okScribe`. -/
def demoClient : LoglensClient := { Category := ascii "loglens", Scribe := okScribe }

/-- A surrounding at 2024-01-01T00:00:00Z on host `h1` with sixteen random bytes. -/
def demoEnv : Env :=
  { now := 1704067200, hostname := some (ascii "h1"),
    urandom := some [1, 2, 3, 0xab, 5, 6, 7, 8, 9, 10, 11, 12, 13, 14, 15, 255] }

/-! ## Predicates used to state the properties -/

/-- A lowercase hexadecimal digit: `0`-`9` or `a`-`f`. -/
def isLowerHexDigit (b : Byte) : Bool :=
  (48 ≤ b.val && b.val ≤ 57) || (97 ≤ b.val && b.val ≤ 102)

/-- The value of a hexadecimal digit (0 for any other byte). -/
def hexValue (b : Byte) : Nat :=
  if 48 ≤ b.val ∧ b.val ≤ 57 then b.val - 48
  else if 97 ≤ b.val ∧ b.val ≤ 102 then b.val - 87
  else 0

/-- Reading a string of hexadecimal digits two by two, high digit first. -/
def hexPairs : GoString → List Nat
  | hi :: lo :: rest => (hexValue hi * 16 + hexValue lo) :: hexPairs rest
  | _ => []

/-- The hyphen positions of the 8-4-4-4-12 layout. -/
def isHyphenPosition (i : Nat) : Bool := i == 8 || i == 13 || i == 18 || i == 23

/-- The string without its hyphens. -/
def dropHyphens (s : GoString) : GoString := s.filter (fun c => c != byteOf '-')

/-- A member `,"key":"..."` of an encoded object for an `omitempty` string
    field: nothing when the value is empty. -/
def optionalMember (key : String) (v : GoString) : GoString :=
  if v = [] then [] else ascii ",\"" ++ ascii key ++ ascii "\":" ++ appendString v

/-- The text of an encoded source object with the given field values. -/
def sourceText (message tag type username hostname timestamp : GoString) : GoString :=
  ascii "\x7b\"message\":" ++ appendString message ++
    optionalMember "tag" tag ++ optionalMember "type" type ++
    optionalMember "username" username ++
    ascii ",\"hostname\":" ++ appendString hostname ++
    ascii ",\"@timestamp\":" ++ appendString timestamp ++ ascii "\x7d"

/-- The text of an encoded record with the given index, encoded source, type
    and id. -/
def recordText (index source type id : GoString) : GoString :=
  ascii "\x7b\"index\":" ++ appendString index ++ ascii ",\"source\":" ++ source ++
    ascii ",\"type\":" ++ appendString type ++ ascii ",\"id\":" ++ appendString id ++
    ascii "\x7d"

/-- The timestamp `Log` computes at an instant. -/
def stamp (unix : Int) : GoString :=
  stringsReplace (formatRFC3339 unix) (ascii "Z") (ascii ".000") 1

/-- The first second of the year 0000 (0000-01-01T00:00:00Z), in Unix seconds. -/
def yearZeroStart : Int := -62167219200

/-- The last second of the year 9999 (9999-12-31T23:59:59Z), in Unix seconds. -/
def year9999End : Int := 253402300799

/-- A decimal digit `0`-`9`. -/
def isDecimalDigit (b : Byte) : Bool := 48 ≤ b.val && b.val ≤ 57

/-- The layout `YYYY-MM-DDTHH:MM:SS.000`: what byte `b` may stand at position `i`. -/
def stampLayout (i : Nat) (b : Byte) : Bool :=
  if i = 4 ∨ i = 7 then b == byteOf '-'
  else if i = 10 then b == byteOf 'T'
  else if i = 13 ∨ i = 16 then b == byteOf ':'
  else if i = 19 then b == byteOf '.'
  else if 20 ≤ i then b == byteOf '0'
  else isDecimalDigit b

/-- The record with its three generated values overwritten: the timestamp and
    the host name of the source, and the id. -/
def withGenerated (log : Log) (src : LogSource) (timestamp hostname id : GoString) : Log :=
  { log with
    Source := some { src with Timestamp := timestamp, Hostname := hostname },
    Id := id }

/-- The keys `structEncode` writes for a field list, in order: those of the
    fields that are not skipped. -/
def writtenKeys (fields : List Field) : List GoString :=
  (fields.filter (fun f => !(f.omitEmpty && f.isEmptyValue))).map (fun f => f.name)

/-- The key of an `omitempty` string field, when it is written. -/
def optionalKey (key : String) (v : GoString) : List GoString :=
  if v = [] then [] else [ascii key]

/-- The line `Log` prints: `[<timestamp> <type>] <message>` and a newline. -/
def printedLine (timestamp type message : GoString) : GoString :=
  ascii "[" ++ timestamp ++ ascii " " ++ type ++ ascii "] " ++ message ++ ascii "\n"

/-- Sixteen bytes used as a sample of what the randomness source delivers. -/
def demoBytes : List Byte := [1, 2, 3, 0xab, 5, 6, 7, 8, 9, 10, 11, 12, 13, 14, 15, 255]

/-- A record as in the package documentation: message, user name, tag and type
    set by the caller. -/
def demoLog : Log :=
  { Index := ascii "peacock", Type_ := ascii "INFO", Id := [],
    Source := some { Message := ascii "Here is a Loglens Message", Tag := ascii "golang",
                     Type_ := ascii "INFO", Username := ascii "peacock",
                     Hostname := [], Timestamp := [] } }

/-- The source of `demoLog`. -/
def demoSource : LogSource :=
  { Message := ascii "Here is a Loglens Message", Tag := ascii "golang",
    Type_ := ascii "INFO", Username := ascii "peacock", Hostname := [], Timestamp := [] }

/-- The member `,"key":"v"` with the value written as it is between the quotes. -/
def verbatimMember (key : String) (v : GoString) : GoString :=
  ascii ",\"" ++ ascii key ++ ascii "\":\"" ++ v ++ ascii "\""

/-- The least second byte of a well-formed UTF-8 sequence that starts with `b0`
    (Unicode Standard, table 3-7). -/
def secondLow (b0 : Byte) : Nat :=
  if b0.val = 0xE0 then 0xA0 else if b0.val = 0xF0 then 0x90 else 0x80

/-- The greatest second byte of a well-formed UTF-8 sequence that starts with
    `b0` (Unicode Standard, table 3-7). -/
def secondHigh (b0 : Byte) : Nat :=
  if b0.val = 0xED then 0x9F else if b0.val = 0xF4 then 0x8F else 0xBF

/-- A UTF-8 continuation byte, `80`-`BF`. -/
def isContinuation (b : Byte) : Bool := 0x80 ≤ b.val && b.val ≤ 0xBF

/-- The string is well-formed UTF-8 and holds none of the characters
    encoding/json escapes: no control character, no `"`, `\`, `<`, `>`, `&`, and
    neither U+2028 nor U+2029 (`E2 80 A8`, `E2 80 A9`). -/
def needsNoEscape : GoString → Bool
  | [] => true
  | b0 :: rest =>
    if b0.val < 0x80 then htmlSafeSet b0 && needsNoEscape rest
    else if b0.val < 0xC2 then false
    else if b0.val < 0xE0 then
      match rest with
      | b1 :: rest => isContinuation b1 && needsNoEscape rest
      | _ => false
    else if b0.val < 0xF0 then
      match rest with
      | b1 :: b2 :: rest =>
        decide (secondLow b0 ≤ b1.val) && decide (b1.val ≤ secondHigh b0) &&
          isContinuation b2 &&
          !(b0.val == 0xE2 && b1.val == 0x80 && (b2.val == 0xA8 || b2.val == 0xA9)) &&
          needsNoEscape rest
      | _ => false
    else if b0.val < 0xF5 then
      match rest with
      | b1 :: b2 :: b3 :: rest =>
        decide (secondLow b0 ≤ b1.val) && decide (b1.val ≤ secondHigh b0) &&
          isContinuation b2 && isContinuation b3 && needsNoEscape rest
      | _ => false
    else false

/-- A record whose tag is one double quote and whose user name is the single
    byte `0xFF`, which is not valid UTF-8. -/
def quoteLog : Log :=
  { Index := ascii "peacock", Type_ := ascii "INFO", Id := [],
    Source := some { Message := ascii "m", Tag := ascii "\"", Type_ := [],
                     Username := [0xFF], Hostname := [], Timestamp := [] } }

/-- The payload sent for `quoteLog` in `demoEnv`. -/
def quotePayload : GoString :=
  ascii ("\x7b\"index\":\"peacock\",\"source\":\x7b\"message\":\"m\",\"tag\":\"\\\"\",\"" ++
      "username\":\"\\ufffd\",\"hostname\":\"h1\",\"@timestamp\":\"2024-01-01T00:00:0" ++
      "0.000\"\x7d,\"type\":\"INFO\",\"id\":\"010203ab-0506-0708-090a-0b0c0d0e0fff\"" ++
      "\x7d")

/-- The payload sent for `SimpleLog("WARN", "say \"hi\"", "a<b")` in `demoEnv`. -/
def simplePayload : GoString :=
  ascii ("\x7b\"index\":\"a\\u003cb\",\"source\":\x7b\"message\":\"say \\\"hi\\\"\",\"ho" ++
      "stname\":\"h1\",\"@timestamp\":\"2024-01-01T00:00:00.000\"\x7d,\"type\":\"WARN" ++
      "\",\"id\":\"010203ab-0506-0708-090a-0b0c0d0e0fff\"\x7d")

/-- The payload sent for `SimpleLog("INFO", "", "")` in `demoEnv`. -/
def emptyPayload : GoString :=
  ascii ("\x7b\"index\":\"\",\"source\":\x7b\"message\":\"\",\"hostname\":\"h1\",\"@time" ++
      "stamp\":\"2024-01-01T00:00:00.000\"\x7d,\"type\":\"INFO\",\"id\":\"010203ab-05" ++
      "06-0708-090a-0b0c0d0e0fff\"\x7d")

/-- The surrounding `demoEnv` with a randomness source that cannot be opened. -/
def noRandomEnv : Env := { demoEnv with urandom := none }

/-- The payload sent for `demoLog` in `noRandomEnv`. -/
def zeroIdPayload : GoString :=
  ascii ("\x7b\"index\":\"peacock\",\"source\":\x7b\"message\":\"Here is a Loglens Messa" ++
      "ge\",\"tag\":\"golang\",\"type\":\"INFO\",\"username\":\"peacock\",\"hostname" ++
      "\":\"h1\",\"@timestamp\":\"2024-01-01T00:00:00.000\"\x7d,\"type\":\"INFO\",\"i" ++
      "d\":\"00000000-0000-0000-0000-000000000000\"\x7d")

/-- The messages handed to the transport by a call, in order. -/
def sentMessages (o : Option Outcome) : Option (List (List GoString)) :=
  o.map (fun out => out.calls.map (fun entries => entries.map (fun e => e.Message)))

/-- The word `héllo €` in UTF-8: a two-byte and a three-byte sequence among ASCII
    letters. -/
def utf8Word : GoString := [0x68, 0xC3, 0xA9, 0x6C, 0x6C, 0x6F, 0x20, 0xE2, 0x82, 0xAC]

/-- The Gregorian leap-year rule. -/
def isLeapYear (y : Nat) : Bool := y % 400 == 0 || (y % 4 == 0 && y % 100 != 0)

/-- The number of days of month `m` (1 = January) in a leap or a common year. -/
def monthLength (leap : Bool) (m : Nat) : Nat :=
  if m = 2 then (if leap then 29 else 28)
  else if m = 4 ∨ m = 6 ∨ m = 9 ∨ m = 11 then 30
  else 31

/-- The number of days of the year before its month `m`. -/
def monthStart (leap : Bool) (m : Nat) : Nat :=
  ((List.range (m - 1)).map (fun i => monthLength leap (i + 1))).sum

/-- The number of days from 0000-01-01 to the first day of year `y`: 365 for
    each year and one more for each leap year among them. -/
def daysBeforeYear (y : Nat) : Nat :=
  365 * y + (y + 3) / 4 - (y + 99) / 100 + (y + 399) / 400

/-- The Unix seconds of a civil date and time in UTC. -/
def civilSeconds (y m d h mi s : Nat) : Int :=
  ((daysBeforeYear y + monthStart (isLeapYear y) m + (d - 1) : Nat) : Int) * 86400 +
    (h : Int) * 3600 + (mi : Int) * 60 + (s : Int) + yearZeroStart

/-- A number below 100 in two decimal digits. -/
def twoDigits (n : Nat) : GoString := [digit (n / 10), digit n]

/-- A number below 10000 in four decimal digits. -/
def fourDigits (n : Nat) : GoString :=
  [digit (n / 1000), digit (n / 100), digit (n / 10), digit n]

/-! # Theorems -/

/-! ## The model on concrete inputs -/

theorem eval_createUuid_none : createUuid none = ascii "00000000-0000-0000-0000-000000000000" := by decide

theorem eval_createUuid_demo : createUuid (some [1,2,3,0xab,5,6,7,8,9,10,11,12,13,14,15,255])
    = ascii "010203ab-0506-0708-090a-0b0c0d0e0fff" := by decide

theorem eval_formatRFC3339_2024 : formatRFC3339 1704067200 = ascii "2024-01-01T00:00:00Z" := by decide

theorem eval_formatRFC3339_year_zero : formatRFC3339 (-62167219200) = ascii "0000-01-01T00:00:00Z" := by decide

theorem eval_formatRFC3339_year_9999 : formatRFC3339 253402300799 = ascii "9999-12-31T23:59:59Z" := by decide

theorem eval_formatRFC3339_leap_day : formatRFC3339 1709251199 = ascii "2024-02-29T23:59:59Z" := by decide

theorem eval_formatRFC3339_year_end : formatRFC3339 1735689599 = ascii "2024-12-31T23:59:59Z" := by decide

theorem eval_formatRFC3339_2000_leap_day :
    formatRFC3339 951782400 = ascii "2000-02-29T00:00:00Z" := by decide

theorem eval_formatRFC3339_2000_year_end :
    formatRFC3339 978307199 = ascii "2000-12-31T23:59:59Z" := by decide

theorem eval_formatRFC3339_1900_february :
    formatRFC3339 (-2203891201) = ascii "1900-02-28T23:59:59Z" := by decide

theorem eval_formatRFC3339_1900_march :
    formatRFC3339 (-2203891200) = ascii "1900-03-01T00:00:00Z" := by decide

theorem eval_formatRFC3339_1900_year_end :
    formatRFC3339 (-2177452801) = ascii "1900-12-31T23:59:59Z" := by decide

theorem eval_formatRFC3339_2100_march :
    formatRFC3339 4107542400 = ascii "2100-03-01T00:00:00Z" := by decide

theorem eval_formatRFC3339_2400_leap_day :
    formatRFC3339 13574606400 = ascii "2400-02-29T12:00:00Z" := by decide

theorem eval_civilSeconds_epoch : civilSeconds 1970 1 1 0 0 0 = 0 := by decide

theorem eval_civilSeconds_2024 : civilSeconds 2024 1 1 0 0 0 = 1704067200 := by decide

theorem eval_civilSeconds_2000_leap_day : civilSeconds 2000 2 29 0 0 0 = 951782400 := by
  decide

theorem eval_civilSeconds_1900_march : civilSeconds 1900 3 1 0 0 0 = -2203891200 := by
  decide

theorem eval_civilSeconds_year_zero : civilSeconds 0 1 1 0 0 0 = yearZeroStart := by decide

theorem eval_civilSeconds_year_9999 : civilSeconds 9999 12 31 23 59 59 = year9999End := by
  decide

theorem eval_formatRFC3339_before_zero : formatRFC3339 (-62167219201) = ascii "-0001-12-31T23:59:59Z" := by decide

theorem eval_formatRFC3339_after_9999 : formatRFC3339 253402300800 = ascii "10000-01-01T00:00:00Z" := by decide

theorem eval_stringsReplace_first : stringsReplace (ascii "aZbZc") (ascii "Z") (ascii ".000") 1 = ascii "a.000bZc" := by
  decide

theorem eval_stringsReplace_two : stringsReplace (ascii "aZbZc") (ascii "Z") (ascii ".000") 2 = ascii "a.000b.000c" := by
  decide

theorem eval_stringsReplace_absent : stringsReplace (ascii "abc") (ascii "Z") (ascii ".000") 1 = ascii "abc" := by decide

theorem eval_appendString_escapes : appendString (ascii "a\"b\\<\n\x01") = ascii "\"a\\\"b\\\\\\u003c\\n\\u0001\"" := by
  decide
-- é (C3 A9) is copied, a lone FF is replaced, U+2028 (E2 80 A8) is escaped

theorem eval_appendString_utf8 : appendString [0xC3, 0xA9, 0xFF, 0xE2, 0x80, 0xA8, 0x41]
    = [0x22, 0xC3, 0xA9] ++ ascii "\\ufffd\\u2028A\"" := by decide

theorem eval_SimpleLog_demo : (demoClient.SimpleLog demoEnv (ascii "WARN") (ascii "hi") (ascii "peacock")).map
    (fun o => o.calls) = some [[LogEntry.mk (ascii "loglens") (ascii
      ("\x7b\"index\":\"peacock\",\"source\":\x7b\"message\":\"hi\",\"hostname\":\"h1\"," ++
       "\"@timestamp\":\"2024-01-01T00:00:00.000\"\x7d,\"type\":\"WARN\"," ++
       "\"id\":\"010203ab-0506-0708-090a-0b0c0d0e0fff\"\x7d"))]] := by
  decide

/-! ## Lemmas on `createUuid` -/

theorem ldigits_high_hex (b : Byte) : isLowerHexDigit (ldigits (b.val >>> 4)) = true := by
  revert b; decide

theorem ldigits_low_hex (b : Byte) : isLowerHexDigit (ldigits (b.val &&& 0xF)) = true := by
  revert b; decide

theorem ldigits_high_ne_hyphen (b : Byte) : (ldigits (b.val >>> 4) != byteOf '-') = true := by
  revert b; decide

theorem ldigits_low_ne_hyphen (b : Byte) : (ldigits (b.val &&& 0xF) != byteOf '-') = true := by
  revert b; decide

theorem hexValue_ldigits (b : Byte) :
    hexValue (ldigits (b.val >>> 4)) * 16 + hexValue (ldigits (b.val &&& 0xF)) = b.val := by
  revert b; decide

theorem length_sixteen (bs : List Byte) (h : bs.length = 16) :
    ∃ b0 b1 b2 b3 b4 b5 b6 b7 b8 b9 b10 b11 b12 b13 b14 b15,
      bs = [b0, b1, b2, b3, b4, b5, b6, b7, b8, b9, b10, b11, b12, b13, b14, b15] := by
  rcases bs with _ | ⟨b0, bs⟩
  · simp at h
  rcases bs with _ | ⟨b1, bs⟩
  · simp at h
  rcases bs with _ | ⟨b2, bs⟩
  · simp at h
  rcases bs with _ | ⟨b3, bs⟩
  · simp at h
  rcases bs with _ | ⟨b4, bs⟩
  · simp at h
  rcases bs with _ | ⟨b5, bs⟩
  · simp at h
  rcases bs with _ | ⟨b6, bs⟩
  · simp at h
  rcases bs with _ | ⟨b7, bs⟩
  · simp at h
  rcases bs with _ | ⟨b8, bs⟩
  · simp at h
  rcases bs with _ | ⟨b9, bs⟩
  · simp at h
  rcases bs with _ | ⟨b10, bs⟩
  · simp at h
  rcases bs with _ | ⟨b11, bs⟩
  · simp at h
  rcases bs with _ | ⟨b12, bs⟩
  · simp at h
  rcases bs with _ | ⟨b13, bs⟩
  · simp at h
  rcases bs with _ | ⟨b14, bs⟩
  · simp at h
  rcases bs with _ | ⟨b15, bs⟩
  · simp at h
  rcases bs with _ | ⟨b16, bs⟩
  · exact ⟨b0, b1, b2, b3, b4, b5, b6, b7, b8, b9, b10, b11, b12, b13, b14, b15, rfl⟩
  · simp at h

/-- The text `createUuid` produces from sixteen bytes, digit by digit. -/
theorem createUuid_sixteen (b0 b1 b2 b3 b4 b5 b6 b7 b8 b9 b10 b11 b12 b13 b14 b15 : Byte) :
    createUuid (some [b0, b1, b2, b3, b4, b5, b6, b7, b8, b9, b10, b11, b12, b13, b14, b15]) =
      [ldigits (b0.val >>> 4), ldigits (b0.val &&& 0xF),
       ldigits (b1.val >>> 4), ldigits (b1.val &&& 0xF),
       ldigits (b2.val >>> 4), ldigits (b2.val &&& 0xF),
       ldigits (b3.val >>> 4), ldigits (b3.val &&& 0xF), byteOf '-',
       ldigits (b4.val >>> 4), ldigits (b4.val &&& 0xF),
       ldigits (b5.val >>> 4), ldigits (b5.val &&& 0xF), byteOf '-',
       ldigits (b6.val >>> 4), ldigits (b6.val &&& 0xF),
       ldigits (b7.val >>> 4), ldigits (b7.val &&& 0xF), byteOf '-',
       ldigits (b8.val >>> 4), ldigits (b8.val &&& 0xF),
       ldigits (b9.val >>> 4), ldigits (b9.val &&& 0xF), byteOf '-',
       ldigits (b10.val >>> 4), ldigits (b10.val &&& 0xF),
       ldigits (b11.val >>> 4), ldigits (b11.val &&& 0xF),
       ldigits (b12.val >>> 4), ldigits (b12.val &&& 0xF),
       ldigits (b13.val >>> 4), ldigits (b13.val &&& 0xF),
       ldigits (b14.val >>> 4), ldigits (b14.val &&& 0xF),
       ldigits (b15.val >>> 4), ldigits (b15.val &&& 0xF)] := by
  simp [createUuid, readUrandom, fmtHex, slice, writePadding, fmtSbx, ascii]

/-- Reading the digits of `createUuid` back gives the sixteen bytes. -/
theorem hexPairs_createUuid (bs : List Byte) (h : bs.length = 16) :
    hexPairs (dropHyphens (createUuid (some bs))) = bs.map (fun b => b.val) := by
  obtain ⟨b0, b1, b2, b3, b4, b5, b6, b7, b8, b9, b10, b11, b12, b13, b14, b15, rfl⟩ :=
    length_sixteen bs h
  rw [createUuid_sixteen]
  simp [dropHyphens, List.filter, ldigits_high_ne_hyphen, ldigits_low_ne_hyphen, hexPairs,
    hexValue_ldigits]

/-! ## Lemmas on the JSON encoding -/

theorem appendStringLoop_safe (s : GoString) :
    ∀ fuel, s.length ≤ fuel → (∀ b ∈ s, htmlSafeSet b = true) →
      appendStringLoop fuel s = s := by
  induction s with
  | nil => intro fuel _ _; cases fuel <;> rfl
  | cons b rest ih =>
    intro fuel hf hs
    cases fuel with
    | zero => simp at hf
    | succ fuel =>
      have hb : htmlSafeSet b = true := hs b (List.mem_cons_self _ _)
      have hlt : b.val < runeSelf := by
        simp only [htmlSafeSet, Bool.and_eq_true, decide_eq_true_eq] at hb
        simp only [runeSelf]
        omega
      have hrest := ih fuel (by simpa using hf) (fun c hc => hs c (List.mem_cons_of_mem _ hc))
      simp [appendStringLoop, hlt, hb, hrest]

/-- A string of bytes from `htmlSafeSet` is encoded as itself between quotes. -/
theorem appendString_safe (s : GoString) (hs : ∀ b ∈ s, htmlSafeSet b = true) :
    appendString s = ascii "\"" ++ s ++ ascii "\"" := by
  simp [appendString, appendStringLoop_safe s s.length (Nat.le_refl _) hs]

theorem first_spec (b0 : Byte) (h0 : 0xC2 ≤ b0.val) (h1 : b0.val < 0xF5) :
    first b0 < 0xF0 ∧ acceptRanges (first b0 >>> 4) = (secondLow b0, secondHigh b0) ∧
      first b0 &&& 7 = (if b0.val < 0xE0 then 2 else if b0.val < 0xF0 then 3 else 4) := by
  revert b0; decide

theorem mask_continuation (b : Byte) : b.val &&& 0x3F = b.val % 64 := by
  revert b; decide

theorem mask_two (b : Byte) : b.val &&& 0x1F = b.val % 32 := by
  revert b; decide

theorem mask_three (b : Byte) : b.val &&& 0x0F = b.val % 16 := by
  revert b; decide

theorem mask_four (b : Byte) : b.val &&& 0x07 = b.val % 8 := by
  revert b; decide

theorem shiftLeft_or (a b k : Nat) (h : b < 2 ^ k) : a <<< k ||| b = a * 2 ^ k + b := by
  rw [Nat.shiftLeft_eq, Nat.mul_comm, ← Nat.mul_add_lt_is_or h]

theorem decode_two (b0 b1 : Byte) (t : GoString) (h0 : 0xC2 ≤ b0.val) (h1 : b0.val < 0xE0)
    (hc : isContinuation b1 = true) :
    decodeRuneInString (b0 :: b1 :: t) = (b0.val % 32 * 64 + b1.val % 64, 2) := by
  obtain ⟨hf, ha, hs⟩ := first_spec b0 h0 (by omega)
  have hlow : secondLow b0 = 0x80 := by simp only [secondLow]; split <;> [omega; (split <;> [omega; rfl])]
  have hhigh : secondHigh b0 = 0xBF := by simp only [secondHigh]; split <;> [omega; (split <;> [omega; rfl])]
  simp only [isContinuation, Bool.and_eq_true, decide_eq_true_eq] at hc
  have hsz : first b0 &&& 7 = 2 := by rw [hs]; simp [h1]
  have hnot : ¬ (first b0 ≥ 0xF0) := by omega
  have h64 : b1.val % 64 < 2 ^ 6 := by omega
  simp only [decodeRuneInString, hnot, if_false, hsz, ha, hlow, hhigh, List.length_cons]
  rw [mask_two, mask_continuation, shiftLeft_or _ _ _ h64]
  have : ¬ (b1.val < 0x80 ∨ 0xBF < b1.val) := by omega
  simp [this]

theorem decode_three (b0 b1 b2 : Byte) (t : GoString) (h0 : 0xE0 ≤ b0.val)
    (h1 : b0.val < 0xF0) (hl : secondLow b0 ≤ b1.val) (hh : b1.val ≤ secondHigh b0)
    (hc : isContinuation b2 = true) :
    decodeRuneInString (b0 :: b1 :: b2 :: t) =
      (b0.val % 16 * 4096 + b1.val % 64 * 64 + b2.val % 64, 3) := by
  obtain ⟨hf, ha, hs⟩ := first_spec b0 (by omega) (by omega)
  simp only [isContinuation, Bool.and_eq_true, decide_eq_true_eq] at hc
  have hsz : first b0 &&& 7 = 3 := by
    rw [hs, if_neg (by omega), if_pos h1]
  have hnot : ¬ (first b0 ≥ 0xF0) := by omega
  have h1' : ¬ (b1.val < secondLow b0 ∨ secondHigh b0 < b1.val) := by omega
  have h2' : ¬ (b2.val < 0x80 ∨ 0xBF < b2.val) := by omega
  have e1 : b1.val % 64 * 2 ^ 6 < 2 ^ 12 := by omega
  have e2 : b2.val % 64 < 2 ^ 6 := by omega
  have e3 : b0.val % 16 * 2 ^ 12 + b1.val % 64 * 2 ^ 6 =
      (b0.val % 16 * 64 + b1.val % 64) * 2 ^ 6 := by omega
  have hlen : ¬ (t.length + 1 + 1 + 1 < 3) := by omega
  have h32 : ¬ (3 ≤ 2) := by omega
  simp only [decodeRuneInString, hnot, if_false, hsz, ha, List.length_cons, h1', h2', hlen,
    h32, Nat.le_refl, if_true]
  rw [mask_three, mask_continuation, mask_continuation, Nat.shiftLeft_eq (b1.val % 64),
    shiftLeft_or _ _ _ e1, e3, ← Nat.shiftLeft_eq, shiftLeft_or _ _ _ e2]
  congr 1
  omega

theorem decode_four (b0 b1 b2 b3 : Byte) (t : GoString) (h0 : 0xF0 ≤ b0.val)
    (h1 : b0.val < 0xF5) (hl : secondLow b0 ≤ b1.val) (hh : b1.val ≤ secondHigh b0)
    (hc2 : isContinuation b2 = true) (hc3 : isContinuation b3 = true) :
    decodeRuneInString (b0 :: b1 :: b2 :: b3 :: t) =
      (b0.val % 8 * 262144 + b1.val % 64 * 4096 + b2.val % 64 * 64 + b3.val % 64, 4) := by
  obtain ⟨hf, ha, hs⟩ := first_spec b0 (by omega) (by omega)
  simp only [isContinuation, Bool.and_eq_true, decide_eq_true_eq] at hc2 hc3
  have hsz : first b0 &&& 7 = 4 := by
    rw [hs, if_neg (by omega), if_neg (by omega)]
  have hnot : ¬ (first b0 ≥ 0xF0) := by omega
  have h1' : ¬ (b1.val < secondLow b0 ∨ secondHigh b0 < b1.val) := by omega
  have h2' : ¬ (b2.val < 0x80 ∨ 0xBF < b2.val) := by omega
  have h3' : ¬ (b3.val < 0x80 ∨ 0xBF < b3.val) := by omega
  have e1 : b1.val % 64 * 2 ^ 12 < 2 ^ 18 := by omega
  have e2 : b2.val % 64 * 2 ^ 6 < 2 ^ 12 := by omega
  have e3 : b3.val % 64 < 2 ^ 6 := by omega
  have e4 : b0.val % 8 * 2 ^ 18 + b1.val % 64 * 2 ^ 12 =
      (b0.val % 8 * 64 + b1.val % 64) * 2 ^ 12 := by omega
  have e5 : (b0.val % 8 * 64 + b1.val % 64) * 2 ^ 12 + b2.val % 64 * 2 ^ 6 =
      ((b0.val % 8 * 64 + b1.val % 64) * 64 + b2.val % 64) * 2 ^ 6 := by omega
  have hlen : ¬ (t.length + 1 + 1 + 1 + 1 < 4) := by omega
  have h42 : ¬ (4 ≤ 2) := by omega
  have h43 : ¬ (4 ≤ 3) := by omega
  simp only [decodeRuneInString, hnot, if_false, hsz, ha, List.length_cons, h1', h2', h3',
    hlen, h42, h43]
  rw [mask_four, mask_continuation, mask_continuation, mask_continuation,
    Nat.shiftLeft_eq (b1.val % 64), Nat.shiftLeft_eq (b2.val % 64),
    shiftLeft_or _ _ _ e1, e4, ← Nat.shiftLeft_eq, shiftLeft_or _ _ _ e2, e5,
    ← Nat.shiftLeft_eq, shiftLeft_or _ _ _ e3]
  congr 1
  omega

theorem needsNoEscape_cons (b0 : Byte) (rest : GoString) :
    needsNoEscape (b0 :: rest) =
      if b0.val < 0x80 then htmlSafeSet b0 && needsNoEscape rest
      else if b0.val < 0xC2 then false
      else if b0.val < 0xE0 then
        match rest with
        | b1 :: rest => isContinuation b1 && needsNoEscape rest
        | _ => false
      else if b0.val < 0xF0 then
        match rest with
        | b1 :: b2 :: rest =>
          decide (secondLow b0 ≤ b1.val) && decide (b1.val ≤ secondHigh b0) &&
            isContinuation b2 &&
            !(b0.val == 0xE2 && b1.val == 0x80 && (b2.val == 0xA8 || b2.val == 0xA9)) &&
            needsNoEscape rest
        | _ => false
      else if b0.val < 0xF5 then
        match rest with
        | b1 :: b2 :: b3 :: rest =>
          decide (secondLow b0 ≤ b1.val) && decide (b1.val ≤ secondHigh b0) &&
            isContinuation b2 && isContinuation b3 && needsNoEscape rest
        | _ => false
      else false := by
  cases rest with
  | nil => rfl
  | cons b1 rest =>
    cases rest with
    | nil => rfl
    | cons b2 rest =>
      cases rest with
      | nil => rfl
      | cons b3 rest => rfl

theorem appendStringLoop_copy (fuel : Nat) (b : Byte) (rest : GoString) (c size : Nat)
    (hb : ¬ b.val < runeSelf)
    (hd : decodeRuneInString ((b :: rest).take utfMax) = (c, size))
    (h1 : size ≠ 1) (h2 : c ≠ 0x2028) (h3 : c ≠ 0x2029) :
    appendStringLoop (fuel + 1) (b :: rest) =
      (b :: rest).take size ++ appendStringLoop fuel ((b :: rest).drop size) := by
  simp [appendStringLoop, hb, hd, h1, h2, h3]

/-- A well-formed UTF-8 string without characters to escape is copied as it is. -/
theorem appendStringLoop_noEscape :
    ∀ (fuel : Nat) (v : GoString), v.length ≤ fuel → needsNoEscape v = true →
      appendStringLoop fuel v = v := by
  intro fuel
  induction fuel using Nat.strong_induction_on with
  | _ fuel ih =>
    intro v hf hv
    cases fuel with
    | zero =>
      cases v with
      | nil => rfl
      | cons b rest => simp at hf
    | succ fuel =>
      cases v with
      | nil => rfl
      | cons b0 rest =>
        rw [needsNoEscape_cons] at hv
        by_cases hascii : b0.val < 0x80
        · rw [if_pos hascii, Bool.and_eq_true] at hv
          have hrest := ih fuel (Nat.lt_succ_self _) rest (by simpa using hf) hv.2
          have hlt : b0.val < runeSelf := hascii
          simp [appendStringLoop, hlt, hv.1, hrest]
        · have hb : ¬ b0.val < runeSelf := hascii
          rw [if_neg hascii] at hv
          by_cases h2 : b0.val < 0xC2
          · simp [h2] at hv
          rw [if_neg h2] at hv
          by_cases h3 : b0.val < 0xE0
          · rw [if_pos h3] at hv
            cases rest with
            | nil => simp at hv
            | cons b1 rest =>
              simp only [Bool.and_eq_true] at hv
              have hd := decode_two b0 b1 (rest.take 2) (by omega) h3 hv.1
              have hrest := ih fuel (Nat.lt_succ_self _) rest
                (by simp only [List.length_cons] at hf; omega) hv.2
              rw [appendStringLoop_copy fuel b0 (b1 :: rest) _ 2 hb
                (by simpa [utfMax] using hd) (by decide) (by omega) (by omega)]
              simp [hrest]
          rw [if_neg h3] at hv
          by_cases h4 : b0.val < 0xF0
          · rw [if_pos h4] at hv
            match rest, hv, hf with
            | [], hv, _ => simp at hv
            | [_], hv, _ => simp at hv
            | b1 :: b2 :: rest, hv, hf =>
              simp only [Bool.and_eq_true, decide_eq_true_eq, Bool.not_eq_true',
                Bool.and_eq_false_iff, Bool.or_eq_false_iff, beq_eq_false_iff_ne, ne_eq] at hv
              obtain ⟨⟨⟨⟨hl, hh⟩, hc⟩, hne⟩, hr⟩ := hv
              have hd := decode_three b0 b1 b2 (rest.take 1) (by omega) h4 hl hh hc
              have hrest := ih fuel (Nat.lt_succ_self _) rest
                (by simp only [List.length_cons] at hf; omega) hr
              have hc' := hc
              simp only [isContinuation, Bool.and_eq_true, decide_eq_true_eq] at hc'
              have hl' : 0x80 ≤ b1.val := by
                have : 0x80 ≤ secondLow b0 := by
                  simp only [secondLow]; split <;> [omega; (split <;> omega)]
                omega
              have hh' : b1.val ≤ 0xBF := by
                have : secondHigh b0 ≤ 0xBF := by
                  simp only [secondHigh]; split <;> [omega; (split <;> omega)]
                omega
              rw [appendStringLoop_copy fuel b0 (b1 :: b2 :: rest) _ 3 hb
                (by simpa [utfMax] using hd) (by decide) (by omega) (by omega)]
              simp [hrest]
          rw [if_neg h4] at hv
          by_cases h5 : b0.val < 0xF5
          · rw [if_pos h5] at hv
            match rest, hv, hf with
            | [], hv, _ => simp at hv
            | [_], hv, _ => simp at hv
            | [_, _], hv, _ => simp at hv
            | b1 :: b2 :: b3 :: rest, hv, hf =>
              simp only [Bool.and_eq_true, decide_eq_true_eq] at hv
              obtain ⟨⟨⟨⟨hl, hh⟩, hc2⟩, hc3⟩, hr⟩ := hv
              have hd := decode_four b0 b1 b2 b3 ([] : GoString) (by omega) h5 hl hh hc2 hc3
              have hrest := ih fuel (Nat.lt_succ_self _) rest
                (by simp only [List.length_cons] at hf; omega) hr
              have hl' : 0x90 ≤ b1.val ∨ 0xF1 ≤ b0.val := by
                simp only [secondLow] at hl
                split at hl <;> [omega; (split at hl <;> omega)]
              have hbig : 65536 ≤ b0.val % 8 * 262144 + b1.val % 64 * 4096 := by
                have hh' : b1.val ≤ 0xBF := by
                  have : secondHigh b0 ≤ 0xBF := by
                    simp only [secondHigh]; split <;> [omega; (split <;> omega)]
                  omega
                rcases hl' with h | h
                · have : 16 ≤ b1.val % 64 := by omega
                  omega
                · have : 1 ≤ b0.val % 8 := by omega
                  omega
              rw [appendStringLoop_copy fuel b0 (b1 :: b2 :: b3 :: rest) _ 4 hb
                (by simpa [utfMax] using hd) (by decide) (by omega) (by omega)]
              simp [hrest]
          · rw [if_neg h5] at hv
            simp at hv

/-- A well-formed UTF-8 string without characters to escape is encoded as itself
    between quotes. -/
theorem appendString_noEscape (v : GoString) (h : needsNoEscape v = true) :
    appendString v = ascii "\"" ++ v ++ ascii "\"" := by
  simp [appendString, appendStringLoop_noEscape v.length v (Nat.le_refl _) h]

theorem comma_ne_brace : ¬ ((Fin.ofNat 44 : Byte) = Fin.ofNat 123) := by decide

theorem marshalLogSource_text (s : LogSource) :
    marshalLogSource s =
      sourceText s.Message s.Tag s.Type_ s.Username s.Hostname s.Timestamp := by
  simp only [marshalLogSource, logSourceFields, stringField, structEncode, sourceText,
    optionalMember, List.isEmpty_iff]
  by_cases h1 : s.Tag = [] <;> by_cases h2 : s.Type_ = [] <;> by_cases h3 : s.Username = [] <;>
    simp [h1, h2, h3, ascii, byteOf, comma_ne_brace]

theorem marshalLog_text (log : Log) (src : LogSource) (h : log.Source = some src) :
    marshalLog log = recordText log.Index (marshalLogSource src) log.Type_ log.Id := by
  simp [marshalLog, logFields, stringField, structEncode, recordText, h, ascii, byteOf,
    comma_ne_brace]

/-! ## Lemmas on the timestamp -/

theorem absSeconds_of_range (unix : Int) (h0 : yearZeroStart ≤ unix) (h1 : unix ≤ year9999End) :
    (absSeconds unix : Int) = unix + unixToAbsolute := by
  simp only [absSeconds, yearZeroStart, year9999End, unixToAbsolute] at *
  omega

theorem absYearDay_yday_le (abs : Nat) : (absYearDay abs).2 ≤ 365 := by
  simp only [absYearDay, secondsPerDay, daysPer400Years, daysPer100Years, daysPer4Years,
    Nat.shiftRight_eq_div_pow]
  omega

/-- Within a 400-year cycle, the last 366 days fall in its 400th year. -/
theorem cycle_last_year (j : Nat) (hj : 145731 ≤ j) (hj2 : j < 146097) :
    399 ≤ 100 * (j / 36524 - j / 36524 / 4)
      + 4 * ((j - 36524 * (j / 36524 - j / 36524 / 4)) / 1461)
      + ((j - 36524 * (j / 36524 - j / 36524 / 4)
            - 1461 * ((j - 36524 * (j / 36524 - j / 36524 / 4)) / 1461)) / 365
         - (j - 36524 * (j / 36524 - j / 36524 / 4)
            - 1461 * ((j - 36524 * (j / 36524 - j / 36524 / 4)) / 1461)) / 365 / 4) := by
  have hg : 3 ≤ j / 36524 := by omega
  have hg2 : j / 36524 ≤ 4 := by omega
  generalize j / 36524 = g at *
  interval_cases g <;> omega

/-- Within a 400-year cycle, the days before the last 366 fall in its first 399 years. -/
theorem cycle_before_last_year (j : Nat) (hj : j ≤ 145730) :
    100 * (j / 36524 - j / 36524 / 4)
      + 4 * ((j - 36524 * (j / 36524 - j / 36524 / 4)) / 1461)
      + ((j - 36524 * (j / 36524 - j / 36524 / 4)
            - 1461 * ((j - 36524 * (j / 36524 - j / 36524 / 4)) / 1461)) / 365
         - (j - 36524 * (j / 36524 - j / 36524 / 4)
            - 1461 * ((j - 36524 * (j / 36524 - j / 36524 / 4)) / 1461)) / 365 / 4) ≤ 398 := by
  have hg : j / 36524 ≤ 3 := by omega
  generalize j / 36524 = g at *
  interval_cases g <;> omega

/-- A 400-year cycle has 400 years. -/
theorem cycle_years (j : Nat) (hj : j < 146097) :
    100 * (j / 36524 - j / 36524 / 4)
      + 4 * ((j - 36524 * (j / 36524 - j / 36524 / 4)) / 1461)
      + ((j - 36524 * (j / 36524 - j / 36524 / 4)
            - 1461 * ((j - 36524 * (j / 36524 - j / 36524 / 4)) / 1461)) / 365
         - (j - 36524 * (j / 36524 - j / 36524 / 4)
            - 1461 * ((j - 36524 * (j / 36524 - j / 36524 / 4)) / 1461)) / 365 / 4) ≤ 399 := by
  have hg : j / 36524 ≤ 4 := by omega
  generalize j / 36524 = g at *
  interval_cases g <;> omega

theorem absYearDay_year_range (unix : Int) (h0 : yearZeroStart ≤ unix)
    (h1 : unix ≤ year9999End) :
    0 ≤ (absYearDay (absSeconds unix)).1 ∧ (absYearDay (absSeconds unix)).1 ≤ 9999 := by
  have h := absSeconds_of_range unix h0 h1
  generalize absSeconds unix = a at h ⊢
  simp only [absYearDay, secondsPerDay, daysPer400Years, daysPer100Years, daysPer4Years,
    Nat.shiftRight_eq_div_pow, absoluteZeroYear, yearZeroStart, year9999End,
    unixToAbsolute, Nat.reduceMul, Nat.reduceAdd, Nat.reducePow] at *
  have hD0 : 146097 * 730692556 - 366 ≤ a / 86400 := by omega
  have hD1 : a / 86400 ≤ 146097 * 730692581 - 367 := by omega
  generalize a / 86400 = D at *
  have hn0 : 730692555 ≤ D / 146097 := by omega
  have hn1 : D / 146097 ≤ 730692580 := by omega
  have hj : D - 146097 * (D / 146097) < 146097 := by omega
  have hlast : D / 146097 = 730692555 → 145731 ≤ D - 146097 * (D / 146097) := by omega
  have hfirst : D / 146097 = 730692580 → D - 146097 * (D / 146097) ≤ 145730 := by omega
  generalize D / 146097 = n at *
  generalize D - 146097 * n = j at *
  have hc := cycle_years j hj
  constructor
  · by_cases hn : n = 730692555
    · have := cycle_last_year j (hlast hn) hj
      omega
    · omega
  · by_cases hn : n = 730692580
    · have := cycle_before_last_year j (hfirst hn)
      omega
    · omega

theorem monthDay_lt (year : Int) (yday : Nat) (h : yday ≤ 365) :
    (monthDay year yday).1 < 100 ∧ (monthDay year yday).2 < 100 := by
  unfold monthDay
  split
  · exact ⟨by decide, by decide⟩
  · generalize hday : (if (isLeap year && decide (yday > 31 + 29 - 1)) = true
        then yday - 1 else yday) = day
    have hd : day ≤ 365 := by
      subst hday
      split <;> omega
    have hm : day / 31 ≤ 11 := by omega
    simp only []
    generalize hM : day / 31 = m at *
    interval_cases m <;> simp only [daysBefore, List.getD_cons_succ, List.getD_cons_zero] <;>
      split <;> constructor <;> simp only [] <;> omega

theorem absClock_lt (abs : Nat) :
    (absClock abs).1 < 100 ∧ (absClock abs).2.1 < 100 ∧ (absClock abs).2.2 < 100 := by
  simp only [absClock, secondsPerDay]
  omega

theorem appendInt_two (n : Nat) (h : n < 100) :
    appendInt (n : Int) 2 = [digit (n / 10), digit n] := by
  have h0 : ¬ ((n : Int) < 0) := by omega
  simp [appendInt, h, h0]

theorem appendInt_four (y : Int) (h0 : 0 ≤ y) (h1 : y ≤ 9999) :
    appendInt y 4 = [digit (y.natAbs / 100 / 10), digit (y.natAbs / 100),
      digit (y.natAbs % 100 / 10), digit (y.natAbs % 100)] := by
  have hn : ¬ (y < 0) := by omega
  have hu : y.natAbs < 10000 := by omega
  simp [appendInt, hn, hu]

theorem isDecimalDigit_digit (n : Nat) : isDecimalDigit (digit n) = true := by
  have h : n % 10 < 10 := Nat.mod_lt _ (by decide)
  simp only [digit]
  generalize n % 10 = k at h
  interval_cases k <;> decide

theorem stringsIndex_last (body : GoString) (z : Byte) (h : z ∉ body) :
    stringsIndex (body ++ [z]) [z] = some body.length := by
  induction body with
  | nil => simp [stringsIndex, hasPrefix]
  | cons a rest ih =>
    have ha : (a == z) = false := by
      simp only [beq_eq_false_iff_ne, ne_eq]
      intro hz
      exact h (by simp [hz])
    have hr : z ∉ rest := fun hz => h (List.mem_cons_of_mem _ hz)
    simp [stringsIndex, hasPrefix, ha, ih hr]

/-- Replacing the first `z` of a string whose only `z` is its last byte replaces
    that last byte. -/
theorem stringsReplace_last (body new : GoString) (z : Byte) (h : z ∉ body)
    (hne : [z] ≠ new) : stringsReplace (body ++ [z]) [z] new 1 = body ++ new := by
  simp [stringsReplace, hne, stringsIndex_last body z h]

theorem stampLayout_ne_Z (i : Nat) (b : Byte) (h : stampLayout i b = true) :
    b ≠ byteOf 'Z' := by
  intro hb
  subst hb
  simp only [stampLayout] at h
  split at h
  · revert h; decide
  · split at h
    · revert h; decide
    · split at h
      · revert h; decide
      · split at h
        · revert h; decide
        · split at h
          · revert h; decide
          · revert h; decide

/-- The text of `Format(time.RFC3339)` in the years 0000 to 9999: nineteen bytes
    in the layout `YYYY-MM-DDTHH:MM:SS`, then `Z`. -/
theorem formatRFC3339_body (unix : Int) (h0 : yearZeroStart ≤ unix)
    (h1 : unix ≤ year9999End) :
    ∃ body : GoString, body.length = 19 ∧
      (∀ i, i < 19 → stampLayout i (body.getD i 0) = true) ∧
      formatRFC3339 unix = body ++ ascii "Z" := by
  obtain ⟨hy0, hy1⟩ := absYearDay_year_range unix h0 h1
  have hyd := absYearDay_yday_le (absSeconds unix)
  obtain ⟨hm, hd⟩ := monthDay_lt (absYearDay (absSeconds unix)).1 _ hyd
  obtain ⟨hh, hmi, hs⟩ := absClock_lt (absSeconds unix)
  simp only [formatRFC3339, absDate, appendInt_four _ hy0 hy1, appendInt_two _ hm,
    appendInt_two _ hd, appendInt_two _ hh, appendInt_two _ hmi, appendInt_two _ hs]
  refine ⟨_, ?_, ?_, rfl⟩
  · simp [ascii]
  · intro i hi
    interval_cases i <;> simp [ascii, stampLayout, isDecimalDigit_digit]

theorem absYearDay_decompose (abs : Nat) :
    ∃ n a b c : Nat, a ≤ 3 ∧ b ≤ 24 ∧ c ≤ 3 ∧
      (absYearDay abs).1 = 400 * (n : Int) + 100 * a + 4 * b + c + absoluteZeroYear ∧
      abs / 86400 = 146097 * n + 36524 * a + 1461 * b + 365 * c + (absYearDay abs).2 ∧
      ((absYearDay abs).2 ≤ 364 ∨
        ((absYearDay abs).2 = 365 ∧ c = 3 ∧ (b ≤ 23 ∨ a = 3))) := by
  simp only [absYearDay, secondsPerDay, daysPer400Years, daysPer100Years, daysPer4Years,
    Nat.shiftRight_eq_div_pow, Nat.reduceMul, Nat.reduceAdd, Nat.reducePow]
  generalize abs / 86400 = D
  have hj : D - 146097 * (D / 146097) < 146097 := by omega
  have hD : D = 146097 * (D / 146097) + (D - 146097 * (D / 146097)) := by omega
  generalize D / 146097 = n at *
  generalize D - 146097 * n = j at *
  subst hD
  have hg : j / 36524 ≤ 4 := by omega
  have hg1 : 36524 * (j / 36524) ≤ j := by omega
  have hg2 : j < 36524 * (j / 36524) + 36524 := by omega
  refine ⟨n, j / 36524 - j / 36524 / 4,
    (j - 36524 * (j / 36524 - j / 36524 / 4)) / 1461,
    (j - 36524 * (j / 36524 - j / 36524 / 4)
        - 1461 * ((j - 36524 * (j / 36524 - j / 36524 / 4)) / 1461)) / 365
      - (j - 36524 * (j / 36524 - j / 36524 / 4)
        - 1461 * ((j - 36524 * (j / 36524 - j / 36524 / 4)) / 1461)) / 365 / 4,
    ?_, ?_, ?_, ?_, ?_, ?_⟩
  rotate_left 3
  · push_cast
    rfl
  all_goals
    generalize j / 36524 = g at *
    interval_cases g <;> omega

theorem isLeap_eq (y : Nat) : isLeap (y : Int) = isLeapYear y := by
  rw [Bool.eq_iff_iff]
  simp only [isLeap, isLeapYear, Bool.and_eq_true, Bool.or_eq_true, beq_iff_eq, bne_iff_ne,
    ne_eq]
  omega

theorem monthDay_spec (year : Int) (leap : Bool) (hl : isLeap year = leap) (yday : Nat)
    (h : yday ≤ 364 ∨ (yday = 365 ∧ leap = true)) :
    1 ≤ (monthDay year yday).1 ∧ (monthDay year yday).1 ≤ 12 ∧
    1 ≤ (monthDay year yday).2 ∧
    (monthDay year yday).2 ≤ monthLength leap (monthDay year yday).1 ∧
    monthStart leap (monthDay year yday).1 + ((monthDay year yday).2 - 1) = yday := by
  unfold monthDay
  rw [hl]
  split
  · rename_i h1
    simp only [Bool.and_eq_true, beq_iff_eq] at h1
    obtain ⟨rfl, rfl⟩ := h1
    decide
  · rename_i h1
    generalize hday : (if (leap && decide (yday > 31 + 29 - 1)) = true
        then yday - 1 else yday) = day
    have hd : day ≤ 364 ∧ (leap = false → day = yday) ∧
        (leap = true → (yday ≤ 58 ∧ day = yday) ∨ (60 ≤ yday ∧ day + 1 = yday)) := by
      subst hday
      cases leap
      · simp at h ⊢
        omega
      · simp at h h1 ⊢
        split <;> omega
    have hm : day / 31 ≤ 11 := by omega
    have hq1 : 31 * (day / 31) ≤ day := by omega
    have hq2 : day < 31 * (day / 31) + 31 := by omega
    simp only []
    generalize day / 31 = k at *
    obtain ⟨hd1, hd2, hd3⟩ := hd
    cases leap <;> interval_cases k <;>
      simp only [daysBefore, List.getD_cons_succ, List.getD_cons_zero] <;>
      split <;>
      simp [monthStart, monthLength, List.range_succ] at hd2 hd3 ⊢ <;>
      omega

theorem absClock_spec (abs : Nat) :
    (absClock abs).1 < 24 ∧ (absClock abs).2.1 < 60 ∧ (absClock abs).2.2 < 60 ∧
    abs % 86400 = (absClock abs).1 * 3600 + (absClock abs).2.1 * 60 + (absClock abs).2.2 := by
  simp only [absClock, secondsPerDay]
  omega

theorem digit_congr (a b : Nat) (h : a % 10 = b % 10) : digit a = digit b := by
  simp only [digit, h]

theorem appendInt_fourDigits (y : Nat) (h : y ≤ 9999) : appendInt (y : Int) 4 = fourDigits y := by
  rw [appendInt_four _ (by omega) (by omega)]
  simp only [fourDigits, Int.natAbs_ofNat]
  rw [digit_congr (y / 100 / 10) (y / 1000) (by omega),
    digit_congr (y % 100 / 10) (y / 10) (by omega), digit_congr (y % 100) y (by omega)]

/-- The text of `Format(time.RFC3339)` in the years 0000 to 9999 is the civil date
    and time of the instant: the digits are those of the one valid year, month,
    day, hour, minute and second whose Unix seconds are the instant. -/
theorem formatRFC3339_civil (unix : Int) (h0 : yearZeroStart ≤ unix)
    (h1 : unix ≤ year9999End) :
    ∃ y m d h mi s : Nat,
      y ≤ 9999 ∧ 1 ≤ m ∧ m ≤ 12 ∧ 1 ≤ d ∧ d ≤ monthLength (isLeapYear y) m ∧
      h < 24 ∧ mi < 60 ∧ s < 60 ∧
      unix = civilSeconds y m d h mi s ∧
      formatRFC3339 unix =
        fourDigits y ++ ascii "-" ++ twoDigits m ++ ascii "-" ++ twoDigits d ++ ascii "T" ++
          twoDigits h ++ ascii ":" ++ twoDigits mi ++ ascii ":" ++ twoDigits s ++
          ascii "Z" := by
  obtain ⟨hy0, hy1⟩ := absYearDay_year_range unix h0 h1
  have habs := absSeconds_of_range unix h0 h1
  obtain ⟨n, a, b, c, ha, hb, hc, hyear, hD, hyd⟩ := absYearDay_decompose (absSeconds unix)
  obtain ⟨hh, hmi, hs, hclock⟩ := absClock_spec (absSeconds unix)
  have hfmt : formatRFC3339 unix =
      appendInt (absYearDay (absSeconds unix)).1 4 ++ ascii "-" ++
        appendInt (monthDay (absYearDay (absSeconds unix)).1
          (absYearDay (absSeconds unix)).2).1 2 ++ ascii "-" ++
        appendInt (monthDay (absYearDay (absSeconds unix)).1
          (absYearDay (absSeconds unix)).2).2 2 ++ ascii "T" ++
        appendInt (absClock (absSeconds unix)).1 2 ++ ascii ":" ++
        appendInt (absClock (absSeconds unix)).2.1 2 ++ ascii ":" ++
        appendInt (absClock (absSeconds unix)).2.2 2 ++ ascii "Z" := rfl
  generalize absSeconds unix = abs at *
  generalize (absYearDay abs).1 = year at *
  generalize (absYearDay abs).2 = yday at *
  obtain ⟨y, rfl⟩ : ∃ y : Nat, year = y := ⟨year.toNat, by omega⟩
  have hleap : isLeap (y : Int) = isLeapYear y := isLeap_eq y
  have hcond : yday ≤ 364 ∨ (yday = 365 ∧ isLeapYear y = true) := by
    rcases hyd with h | ⟨h, hc3, hb3⟩
    · exact Or.inl h
    · refine Or.inr ⟨h, ?_⟩
      simp only [isLeapYear, Bool.and_eq_true, Bool.or_eq_true, beq_iff_eq, bne_iff_ne, ne_eq]
      simp only [absoluteZeroYear] at hyear
      omega
  obtain ⟨hm1, hm12, hd1, hdl, hms⟩ :=
    monthDay_spec (y : Int) (isLeapYear y) hleap yday hcond
  generalize (monthDay (y : Int) yday).1 = m at *
  generalize (monthDay (y : Int) yday).2 = d at *
  have hdm : d ≤ 31 := by
    refine Nat.le_trans hdl ?_
    simp only [monthLength]
    split <;> [(split <;> omega); (split <;> omega)]
  generalize (absClock abs).1 = h at *
  generalize (absClock abs).2.1 = mi at *
  generalize (absClock abs).2.2 = s at *
  refine ⟨y, m, d, h, mi, s, by omega, hm1, hm12, hd1, hdl, hh, hmi, hs, ?_, ?_⟩
  · simp only [civilSeconds, daysBeforeYear, yearZeroStart, unixToAbsolute,
      absoluteZeroYear] at *
    omega
  · rw [hfmt, appendInt_fourDigits y (by omega), appendInt_two m (by omega),
      appendInt_two d (by omega), appendInt_two h (by omega), appendInt_two mi (by omega),
      appendInt_two s (by omega)]
    rfl

/-! ## Lemmas on `Log` -/

/-- What `Log` does on a record with a source: one line printed, one transport
    call with one entry, whose answer is returned. -/
theorem Log_of_source (l : LoglensClient) (env : Env) (log : Log) (src : LogSource)
    (h : log.Source = some src) :
    l.Log env log = some
      (Outcome.mk
        (withGenerated log src (stamp env.now) (env.hostname.getD []) (createUuid env.urandom))
        [printedLine (stamp env.now) log.Type_ src.Message]
        [[LogEntry.mk l.Category (marshalLog (withGenerated log src (stamp env.now)
            (env.hostname.getD []) (createUuid env.urandom)))]]
        (l.Scribe.Log [LogEntry.mk l.Category (marshalLog (withGenerated log src
            (stamp env.now) (env.hostname.getD []) (createUuid env.urandom)))]).1
        (l.Scribe.Log [LogEntry.mk l.Category (marshalLog (withGenerated log src
            (stamp env.now) (env.hostname.getD []) (createUuid env.urandom)))]).2) := by
  simp only [LoglensClient.Log, h, LoglensClient.RawLog, withGenerated, stamp, printedLine]

/-- The text of the encoded record after the generated values are written. -/
theorem marshalLog_withGenerated (log : Log) (src : LogSource) (ts host id : GoString) :
    marshalLog (withGenerated log src ts host id) =
      recordText log.Index
        (sourceText src.Message src.Tag src.Type_ src.Username host ts) log.Type_ id := by
  rw [marshalLog_text _ _ rfl, marshalLogSource_text]
  rfl

theorem writtenKeys_logFields (log : Log) :
    writtenKeys (logFields log) = [ascii "index", ascii "source", ascii "type", ascii "id"] := by
  simp [writtenKeys, logFields, stringField]

theorem writtenKeys_logSourceFields (s : LogSource) :
    writtenKeys (logSourceFields s) =
      [ascii "message"] ++ optionalKey "tag" s.Tag ++ optionalKey "type" s.Type_ ++
        optionalKey "username" s.Username ++ [ascii "hostname", ascii "@timestamp"] := by
  rcases s with ⟨⟨host, ts⟩, msg, tag, ty, user⟩
  cases tag <;> cases ty <;> cases user <;>
    simp [writtenKeys, logSourceFields, stringField, optionalKey, List.filter]

/-! ## Further lemmas on `createUuid` -/

theorem readUrandom_length (urandom : Option (List Byte)) :
    (readUrandom urandom).length = 16 := by
  cases urandom with
  | none => simp [readUrandom]
  | some data =>
    simp only [readUrandom, List.length_append, List.length_take, List.length_replicate]
    omega

theorem readUrandom_sixteen (bs : List Byte) (h : bs.length = 16) :
    readUrandom (some bs) = bs := by
  simp [readUrandom, h, List.take_of_length_le]

/-- The id is always the rendering of the sixteen bytes of the buffer. -/
theorem createUuid_buffer (urandom : Option (List Byte)) :
    createUuid urandom = createUuid (some (readUrandom urandom)) := by
  simp only [createUuid, readUrandom_sixteen _ (readUrandom_length urandom)]

theorem createUuid_layout (bs : List Byte) (h : bs.length = 16) :
    (createUuid (some bs)).length = 36 ∧
    ∀ i, i < 36 →
      if isHyphenPosition i = true then (createUuid (some bs)).getD i 0 = byteOf '-'
      else isLowerHexDigit ((createUuid (some bs)).getD i 0) = true := by
  obtain ⟨b0, b1, b2, b3, b4, b5, b6, b7, b8, b9, b10, b11, b12, b13, b14, b15, rfl⟩ :=
    length_sixteen bs h
  rw [createUuid_sixteen]
  refine ⟨rfl, ?_⟩
  intro i hi
  interval_cases i <;> simp [isHyphenPosition, ldigits_high_hex, ldigits_low_hex]

theorem htmlSafeSet_of_hex (b : Byte) (h : isLowerHexDigit b = true) : htmlSafeSet b = true := by
  revert b; decide

theorem createUuid_safe (urandom : Option (List Byte)) :
    ∀ b ∈ createUuid urandom, htmlSafeSet b = true := by
  rw [createUuid_buffer]
  obtain ⟨hlen, hpos⟩ := createUuid_layout _ (readUrandom_length urandom)
  generalize createUuid (some (readUrandom urandom)) = id at *
  intro b hb
  obtain ⟨i, hi, rfl⟩ := List.getElem_of_mem hb
  have h := hpos i (by omega)
  rw [List.getD_eq_getElem _ _ hi] at h
  split at h
  · rw [h]; decide
  · exact htmlSafeSet_of_hex _ h

/-- The id is written to the payload as it is, between quotes. -/
theorem appendString_createUuid (urandom : Option (List Byte)) :
    appendString (createUuid urandom) = ascii "\"" ++ createUuid urandom ++ ascii "\"" :=
  appendString_safe _ (createUuid_safe urandom)

theorem dropHyphens_createUuid_length (bs : List Byte) (h : bs.length = 16) :
    (dropHyphens (createUuid (some bs))).length = 32 := by
  obtain ⟨b0, b1, b2, b3, b4, b5, b6, b7, b8, b9, b10, b11, b12, b13, b14, b15, rfl⟩ :=
    length_sixteen bs h
  rw [createUuid_sixteen]
  simp [dropHyphens, List.filter, ldigits_high_ne_hyphen, ldigits_low_ne_hyphen]

/-! ## The claims -/

/-- C1: for every record with a non-nil source, `Log` sends one payload, the JSON
    object whose outer keys are exactly `index`, `source`, `type`, `id`, in that
    order and all four always written (whatever their values, the empty string
    included), and whose source object has the keys `message`, `tag`, `type`,
    `username`, `hostname`, `@timestamp` in that order, of which `message`,
    `hostname` and `@timestamp` are always written and `tag`, `type`, `username`
    are written exactly when their value is not empty. -/
theorem Log_payload_keys (l : LoglensClient) (env : Env) (log : Log) (src : LogSource)
    (h : log.Source = some src) :
    ∃ out src',
      l.Log env log = some out ∧ out.log.Source = some src' ∧
      out.calls = [[LogEntry.mk l.Category (marshalLog out.log)]] ∧
      writtenKeys (logFields out.log) =
        [ascii "index", ascii "source", ascii "type", ascii "id"] ∧
      writtenKeys (logSourceFields src') =
        [ascii "message"] ++ optionalKey "tag" src.Tag ++ optionalKey "type" src.Type_ ++
          optionalKey "username" src.Username ++ [ascii "hostname", ascii "@timestamp"] ∧
      marshalLog out.log =
        ascii "\x7b\"index\":" ++ appendString log.Index ++
        ascii ",\"source\":" ++
          (ascii "\x7b\"message\":" ++ appendString src.Message ++
            optionalMember "tag" src.Tag ++ optionalMember "type" src.Type_ ++
            optionalMember "username" src.Username ++
            ascii ",\"hostname\":" ++ appendString (env.hostname.getD []) ++
            ascii ",\"@timestamp\":" ++ appendString (stamp env.now) ++ ascii "\x7d") ++
        ascii ",\"type\":" ++ appendString log.Type_ ++
        ascii ",\"id\":" ++ appendString (createUuid env.urandom) ++ ascii "\x7d" := by
  refine ⟨_, _, Log_of_source l env log src h, rfl, rfl, writtenKeys_logFields _, ?_, ?_⟩
  · exact writtenKeys_logSourceFields _
  · exact marshalLog_withGenerated log src _ _ _

theorem Log_payload_keys_witness :
    ∃ out src',
      demoClient.Log demoEnv demoLog = some out ∧ out.log.Source = some src' ∧
      writtenKeys (logFields out.log) =
        [ascii "index", ascii "source", ascii "type", ascii "id"] ∧
      writtenKeys (logSourceFields src') =
        [ascii "message", ascii "tag", ascii "type", ascii "username", ascii "hostname",
          ascii "@timestamp"] := by
  obtain ⟨out, src', h1, h2, _, h4, h5, _⟩ :=
    Log_payload_keys demoClient demoEnv demoLog demoSource rfl
  exact ⟨out, src', h1, h2, h4, h5⟩

/-- C6: for every client and every record with a non-nil source, `Log` calls the
    transport exactly once, with a list of exactly one entry whose category is
    the client's `Category` and whose message is the JSON encoding of the record
    with its timestamp, host name and id overwritten by the freshly generated
    values, whatever they held before, and the caller's fields (index, type,
    message, tag, source type, user name) unchanged; `Log` returns the result
    code and error of that call unchanged. -/
theorem Log_sends_once (l : LoglensClient) (env : Env) (log : Log) (src : LogSource)
    (h : log.Source = some src) :
    ∃ out,
      l.Log env log = some out ∧
      out.calls = [[LogEntry.mk l.Category (marshalLog out.log)]] ∧
      (out.r, out.err) = l.Scribe.Log [LogEntry.mk l.Category (marshalLog out.log)] ∧
      out.log.Index = log.Index ∧ out.log.Type_ = log.Type_ ∧
      out.log.Id = createUuid env.urandom ∧
      out.log.Source = some
        { Message := src.Message, Tag := src.Tag, Type_ := src.Type_,
          Username := src.Username, Hostname := env.hostname.getD [],
          Timestamp := stamp env.now } ∧
      (∀ ts0 host0 id0 : GoString,
        l.Log env (withGenerated log src ts0 host0 id0) = l.Log env log) := by
  refine ⟨_, Log_of_source l env log src h, rfl, rfl, rfl, rfl, rfl, rfl, ?_⟩
  intro ts0 host0 id0
  rw [Log_of_source l env log src h, Log_of_source l env (withGenerated log src ts0 host0 id0)
    { src with Timestamp := ts0, Hostname := host0 } rfl]
  rfl

theorem Log_sends_once_witness :
    ∃ out,
      demoClient.Log demoEnv demoLog = some out ∧
      out.calls = [[LogEntry.mk (ascii "loglens") (marshalLog out.log)]] ∧
      (out.r, out.err) = (0, none) ∧
      out.log.Id = ascii "010203ab-0506-0708-090a-0b0c0d0e0fff" := by
  obtain ⟨out, h1, h2, h3, _, _, h6, _⟩ :=
    Log_sends_once demoClient demoEnv demoLog demoSource rfl
  refine ⟨out, h1, h2, h3, ?_⟩
  rw [h6]
  decide

/-- C3: for every client and every record, whatever its `Type` held before,
    `Info`, `Warn` and `Error` behave exactly as `Log` on the record with `Type`
    replaced by `"INFO"`, `"WARN"` and `"ERROR"`; on a record with a source the
    payload they send has exactly that literal as its outer `type`, and the
    source's own type field is the caller's. -/
theorem severity_methods (l : LoglensClient) (env : Env) (log : Log) :
    l.Info env log = l.Log env { log with Type_ := ascii "INFO" } ∧
    l.Warn env log = l.Log env { log with Type_ := ascii "WARN" } ∧
    l.Error env log = l.Log env { log with Type_ := ascii "ERROR" } ∧
    ∀ src, log.Source = some src →
      ∃ oi ow oe,
        l.Info env log = some oi ∧ l.Warn env log = some ow ∧ l.Error env log = some oe ∧
        oi.log.Type_ = ascii "INFO" ∧ ow.log.Type_ = ascii "WARN" ∧
        oe.log.Type_ = ascii "ERROR" ∧
        oi.log.Source.map (fun s => s.Type_) = some src.Type_ ∧
        ow.log.Source.map (fun s => s.Type_) = some src.Type_ ∧
        oe.log.Source.map (fun s => s.Type_) = some src.Type_ ∧
        oi.calls = [[LogEntry.mk l.Category
          (recordText log.Index
            (sourceText src.Message src.Tag src.Type_ src.Username (env.hostname.getD [])
              (stamp env.now))
            (ascii "INFO") (createUuid env.urandom))]] ∧
        ow.calls = [[LogEntry.mk l.Category
          (recordText log.Index
            (sourceText src.Message src.Tag src.Type_ src.Username (env.hostname.getD [])
              (stamp env.now))
            (ascii "WARN") (createUuid env.urandom))]] ∧
        oe.calls = [[LogEntry.mk l.Category
          (recordText log.Index
            (sourceText src.Message src.Tag src.Type_ src.Username (env.hostname.getD [])
              (stamp env.now))
            (ascii "ERROR") (createUuid env.urandom))]] ∧
        appendString (ascii "INFO") = ascii "\"INFO\"" ∧
        appendString (ascii "WARN") = ascii "\"WARN\"" ∧
        appendString (ascii "ERROR") = ascii "\"ERROR\"" := by
  refine ⟨rfl, rfl, rfl, ?_⟩
  intro src h
  refine ⟨_, _, _,
    Log_of_source l env { log with Type_ := ascii "INFO" } src h,
    Log_of_source l env { log with Type_ := ascii "WARN" } src h,
    Log_of_source l env { log with Type_ := ascii "ERROR" } src h,
    rfl, rfl, rfl, rfl, rfl, rfl, ?_, ?_, ?_, by decide, by decide, by decide⟩
  · rw [marshalLog_withGenerated]
  · rw [marshalLog_withGenerated]
  · rw [marshalLog_withGenerated]

theorem severity_methods_witness :
    ∃ oi ow oe,
      demoClient.Info demoEnv { demoLog with Type_ := ascii "old" } = some oi ∧
      demoClient.Warn demoEnv { demoLog with Type_ := ascii "old" } = some ow ∧
      demoClient.Error demoEnv { demoLog with Type_ := ascii "old" } = some oe ∧
      oi.log.Type_ = ascii "INFO" ∧ ow.log.Type_ = ascii "WARN" ∧
      oe.log.Type_ = ascii "ERROR" := by
  obtain ⟨oi, ow, oe, h1, h2, h3, h4, h5, h6, _⟩ :=
    (severity_methods demoClient demoEnv { demoLog with Type_ := ascii "old" }).2.2.2
      demoSource rfl
  exact ⟨oi, ow, oe, h1, h2, h3, h4, h5, h6⟩

/-- C4: for every instant in the years 0000 to 9999, the timestamp `Log` writes
    into the record is the UTC RFC 3339 text of the instant at seconds resolution
    with its trailing `Z` replaced by `.000`: a string of 23 bytes in the layout
    `YYYY-MM-DDTHH:MM:SS.000`, without any `Z`, whose digits are a valid Gregorian
    year, month, day, hour, minute and second that denote the instant; the
    instant 2024-01-01T00:00:00Z gives `2024-01-01T00:00:00.000`. -/
theorem Log_timestamp_layout (unix : Int) (h0 : yearZeroStart ≤ unix)
    (h1 : unix ≤ year9999End) :
    (∃ y m d h mi s : Nat,
      y ≤ 9999 ∧ 1 ≤ m ∧ m ≤ 12 ∧ 1 ≤ d ∧ d ≤ monthLength (isLeapYear y) m ∧
      h < 24 ∧ mi < 60 ∧ s < 60 ∧
      unix = civilSeconds y m d h mi s ∧
      formatRFC3339 unix =
        fourDigits y ++ ascii "-" ++ twoDigits m ++ ascii "-" ++ twoDigits d ++ ascii "T" ++
          twoDigits h ++ ascii ":" ++ twoDigits mi ++ ascii ":" ++ twoDigits s ++
          ascii "Z" ∧
      stamp unix =
        fourDigits y ++ ascii "-" ++ twoDigits m ++ ascii "-" ++ twoDigits d ++ ascii "T" ++
          twoDigits h ++ ascii ":" ++ twoDigits mi ++ ascii ":" ++ twoDigits s ++
          ascii ".000") ∧
    (∃ body, formatRFC3339 unix = body ++ ascii "Z" ∧ stamp unix = body ++ ascii ".000") ∧
    (stamp unix).length = 23 ∧
    (∀ i, i < 23 → stampLayout i ((stamp unix).getD i 0) = true) ∧
    byteOf 'Z' ∉ stamp unix ∧
    (∀ (l : LoglensClient) (env : Env) (log : Log) (src : LogSource),
      env.now = unix → log.Source = some src →
      ∃ out, l.Log env log = some out ∧
        out.log.Source.map (fun s => s.Timestamp) = some (stamp unix)) ∧
    stamp 1704067200 = ascii "2024-01-01T00:00:00.000" := by
  obtain ⟨body, hlen, hlay, hfmt⟩ := formatRFC3339_body unix h0 h1
  have hZ : byteOf 'Z' ∉ body := by
    intro hmem
    obtain ⟨i, hi, hb⟩ := List.getElem_of_mem hmem
    have := hlay i (by omega)
    rw [List.getD_eq_getElem _ _ hi, hb] at this
    exact stampLayout_ne_Z i _ this rfl
  have hstamp : stamp unix = body ++ ascii ".000" := by
    rw [stamp, hfmt]
    exact stringsReplace_last body (ascii ".000") (byteOf 'Z') hZ (by decide)
  have hlayout : ∀ i, i < 23 → stampLayout i ((stamp unix).getD i 0) = true := by
    intro i hi
    rw [hstamp]
    by_cases hlt : i < 19
    · rw [List.getD_append _ _ _ _ (by omega)]
      exact hlay i hlt
    · rw [List.getD_append_right _ _ _ _ (by omega), hlen]
      have h4 : i - 19 < 4 := by omega
      have hi' : i = 19 + (i - 19) := by omega
      generalize i - 19 = k at h4 hi'
      subst hi'
      interval_cases k <;> decide
  have hcivil : ∃ y m d h mi s : Nat,
      y ≤ 9999 ∧ 1 ≤ m ∧ m ≤ 12 ∧ 1 ≤ d ∧ d ≤ monthLength (isLeapYear y) m ∧
      h < 24 ∧ mi < 60 ∧ s < 60 ∧
      unix = civilSeconds y m d h mi s ∧
      formatRFC3339 unix =
        fourDigits y ++ ascii "-" ++ twoDigits m ++ ascii "-" ++ twoDigits d ++ ascii "T" ++
          twoDigits h ++ ascii ":" ++ twoDigits mi ++ ascii ":" ++ twoDigits s ++
          ascii "Z" ∧
      stamp unix =
        fourDigits y ++ ascii "-" ++ twoDigits m ++ ascii "-" ++ twoDigits d ++ ascii "T" ++
          twoDigits h ++ ascii ":" ++ twoDigits mi ++ ascii ":" ++ twoDigits s ++
          ascii ".000" := by
    obtain ⟨y, m, d, h, mi, s, c1, c2, c3, c4, c5, c6, c7, c8, c9, c10⟩ :=
      formatRFC3339_civil unix h0 h1
    refine ⟨y, m, d, h, mi, s, c1, c2, c3, c4, c5, c6, c7, c8, c9, c10, ?_⟩
    rw [hstamp]
    rw [hfmt] at c10
    rw [List.append_cancel_right c10]
  refine ⟨hcivil, ⟨body, hfmt, hstamp⟩, ?_, hlayout, ?_, ?_, by decide⟩
  · rw [hstamp, List.length_append, hlen]
    rfl
  · intro hmem
    obtain ⟨i, hi, hb⟩ := List.getElem_of_mem hmem
    have hi23 : i < 23 := by
      rw [hstamp, List.length_append, hlen] at hi
      exact hi
    have := hlayout i hi23
    rw [List.getD_eq_getElem _ _ hi, hb] at this
    exact stampLayout_ne_Z i _ this rfl
  · intro l env log src hnow hsrc
    subst hnow
    refine ⟨_, Log_of_source l env log src hsrc, ?_⟩
    simp only [withGenerated, Option.map_some']

theorem Log_timestamp_layout_witness :
    yearZeroStart ≤ 1704067200 ∧ (1704067200 : Int) ≤ year9999End ∧
    (stamp 1704067200).length = 23 ∧ byteOf 'Z' ∉ stamp 1704067200 :=
  ⟨by decide, by decide,
    (Log_timestamp_layout 1704067200 (by decide) (by decide)).2.2.1,
    (Log_timestamp_layout 1704067200 (by decide) (by decide)).2.2.2.2.1⟩

/-- C5: for every sixteen bytes read from the randomness source, `createUuid`
    returns a string of 36 bytes with a hyphen at exactly the positions 8, 13, 18
    and 23 and a lowercase hexadecimal digit everywhere else, whose 32 digits are,
    two by two and in order, the sixteen bytes; it is the id of the record and of
    the payload `Log` sends, written there as it is between quotes. -/
theorem createUuid_canonical (bs : List Byte) (h : bs.length = 16) :
    (createUuid (some bs)).length = 36 ∧
    (∀ i, i < 36 →
      if isHyphenPosition i = true then (createUuid (some bs)).getD i 0 = byteOf '-'
      else isLowerHexDigit ((createUuid (some bs)).getD i 0) = true) ∧
    (dropHyphens (createUuid (some bs))).length = 32 ∧
    hexPairs (dropHyphens (createUuid (some bs))) = bs.map (fun b => b.val) ∧
    (∀ (l : LoglensClient) (env : Env) (log : Log) (src : LogSource),
      env.urandom = some bs → log.Source = some src →
      ∃ out, l.Log env log = some out ∧ out.log.Id = createUuid (some bs) ∧
        out.calls = [[LogEntry.mk l.Category
          (ascii "\x7b\"index\":" ++ appendString log.Index ++ ascii ",\"source\":" ++
            sourceText src.Message src.Tag src.Type_ src.Username (env.hostname.getD [])
              (stamp env.now) ++
            ascii ",\"type\":" ++ appendString log.Type_ ++
            ascii ",\"id\":" ++ (ascii "\"" ++ createUuid (some bs) ++ ascii "\"") ++
            ascii "\x7d")]]) := by
  obtain ⟨hlen, hpos⟩ := createUuid_layout bs h
  refine ⟨hlen, hpos, dropHyphens_createUuid_length bs h, hexPairs_createUuid bs h, ?_⟩
  intro l env log src hu hsrc
  refine ⟨_, Log_of_source l env log src hsrc, ?_, ?_⟩
  · simp only [withGenerated, hu]
  · rw [marshalLog_withGenerated, recordText, appendString_createUuid, hu]

theorem createUuid_canonical_witness :
    demoBytes.length = 16 ∧
    (createUuid (some demoBytes)).length = 36 ∧
    hexPairs (dropHyphens (createUuid (some demoBytes))) = demoBytes.map (fun b => b.val) :=
  ⟨by decide, (createUuid_canonical demoBytes (by decide)).1,
    (createUuid_canonical demoBytes (by decide)).2.2.2.1⟩

/-- C10: the rendering of `createUuid` is injective on sixteen-byte inputs: equal
    ids come from equal bytes, so two records built one after the other have
    distinct ids whenever the two sixteen-byte values read from the randomness
    source differ. -/
theorem createUuid_injective (b1 b2 : List Byte) (h1 : b1.length = 16)
    (h2 : b2.length = 16) :
    (createUuid (some b1) = createUuid (some b2) → b1 = b2) ∧
    (∀ (l : LoglensClient) (e1 e2 : Env) (log1 log2 : Log) (s1 s2 : LogSource),
      e1.urandom = some b1 → e2.urandom = some b2 →
      log1.Source = some s1 → log2.Source = some s2 → b1 ≠ b2 →
      ∃ o1 o2, l.Log e1 log1 = some o1 ∧ l.Log e2 log2 = some o2 ∧
        o1.log.Id ≠ o2.log.Id) := by
  have hinj : createUuid (some b1) = createUuid (some b2) → b1 = b2 := by
    intro heq
    have hp1 := hexPairs_createUuid b1 h1
    have hp2 := hexPairs_createUuid b2 h2
    rw [heq, hp2] at hp1
    exact (List.map_injective_iff.mpr Fin.val_injective hp1).symm
  refine ⟨hinj, ?_⟩
  intro l e1 e2 log1 log2 s1 s2 hu1 hu2 hs1 hs2 hne
  refine ⟨_, _, Log_of_source l e1 log1 s1 hs1, Log_of_source l e2 log2 s2 hs2, ?_⟩
  simp only [withGenerated, hu1, hu2]
  exact fun heq => hne (hinj heq)

theorem createUuid_injective_witness :
    demoBytes.length = 16 ∧ (List.replicate 16 (0 : Byte)).length = 16 ∧
    (createUuid (some demoBytes) = createUuid (some (List.replicate 16 0)) →
      demoBytes = List.replicate 16 0) :=
  ⟨by decide, by decide,
    (createUuid_injective demoBytes (List.replicate 16 0) (by decide) (by decide)).1⟩

/-- Counterexample to C2 as stated: a tag that is one double quote is written as
    `\"`, and a user name that is the byte `0xFF` is written as the six bytes `\ufffd`; neither
    stands in the payload as it is. -/
theorem optional_field_not_verbatim :
    sentMessages (demoClient.Log demoEnv quoteLog) = some [[quotePayload]] ∧
    ¬ (verbatimMember "tag" (ascii "\"") <:+: quotePayload) ∧
    ¬ (verbatimMember "username" [0xFF] <:+: quotePayload) := by
  decide

/-- C2, amended: each of the source fields `tag`, `type` and `username` is absent
    from the encoded source object exactly when it is the empty string (no key is
    written for it, neither with `""` nor with `null`); when it is not empty its
    key is written once, at its place, with the JSON string literal of the field
    as its value (`appendString`: the double quote, the backslash, the bytes below
    `0x20`, `<`, `>`, `&`, U+2028 and U+2029 escaped, bytes that are not valid
    UTF-8 replaced by the six bytes `\ufffd`), and this literal is
    the field as it is between quotes whenever the field is well-formed UTF-8 and
    holds none of the escaped characters. -/
theorem optional_fields_encoding (s : LogSource) :
    marshalLogSource s =
      ascii "\x7b\"message\":" ++ appendString s.Message ++
        optionalMember "tag" s.Tag ++ optionalMember "type" s.Type_ ++
        optionalMember "username" s.Username ++
        ascii ",\"hostname\":" ++ appendString s.Hostname ++
        ascii ",\"@timestamp\":" ++ appendString s.Timestamp ++ ascii "\x7d" ∧
    writtenKeys (logSourceFields s) =
      [ascii "message"] ++ optionalKey "tag" s.Tag ++ optionalKey "type" s.Type_ ++
        optionalKey "username" s.Username ++ [ascii "hostname", ascii "@timestamp"] ∧
    (∀ (key : String) (v : GoString),
      (v = [] → optionalMember key v = [] ∧ optionalKey key v = []) ∧
      (v ≠ [] → optionalKey key v = [ascii key] ∧
        optionalMember key v = ascii ",\"" ++ ascii key ++ ascii "\":" ++ appendString v) ∧
      (v ≠ [] → needsNoEscape v = true → optionalMember key v = verbatimMember key v)) := by
  refine ⟨marshalLogSource_text s, writtenKeys_logSourceFields s, ?_⟩
  intro key v
  refine ⟨?_, ?_, ?_⟩
  · intro hv
    simp [optionalMember, optionalKey, hv]
  · intro hv
    simp [optionalMember, optionalKey, hv]
  · intro hv hp
    simp only [optionalMember, verbatimMember, hv, appendString_noEscape v hp, if_false,
      List.append_assoc]
    rfl

theorem optional_fields_encoding_witness :
    utf8Word ≠ [] ∧ needsNoEscape utf8Word = true ∧
    optionalMember "tag" utf8Word = verbatimMember "tag" utf8Word ∧
    optionalMember "username" [] = [] :=
  ⟨by decide, by decide,
    ((optional_fields_encoding demoSource).2.2 "tag" utf8Word).2.2 (by decide) (by decide),
    (((optional_fields_encoding demoSource).2.2 "username" []).1 rfl).1⟩

/-- Counterexample to C7 as stated: `SimpleLog("WARN", "say \"hi\"", "a<b")` sends
    a payload in which the message stands as `say \"hi\"` and the index as
    `a<b`, not as they were given. -/
theorem SimpleLog_not_verbatim :
    sentMessages (demoClient.SimpleLog demoEnv (ascii "WARN") (ascii "say \"hi\"")
      (ascii "a<b")) = some [[simplePayload]] ∧
    ¬ (ascii "\"message\":\"say \"hi\"\"" <:+: simplePayload) ∧
    ¬ (ascii "\"index\":\"a<b\"" <:+: simplePayload) := by
  decide

/-- C7, amended: for every severity, message and index, `SimpleLog` sends one
    payload whose outer `index`, `type` and source `message` carry the JSON string
    literals of index, severity and message, with no `tag`, `type` or `username`
    key in the source object; a literal is the string as it is between quotes
    whenever the string is well-formed UTF-8 and holds none of the characters the
    encoder escapes (the double quote, the backslash, the bytes below `0x20`,
    `<`, `>`, `&`, U+2028, U+2029). -/
theorem SimpleLog_payload (l : LoglensClient) (env : Env)
    (logType message index : GoString) :
    ∃ out src',
      l.SimpleLog env logType message index = some out ∧
      out.log.Source = some src' ∧
      out.calls = [[LogEntry.mk l.Category (marshalLog out.log)]] ∧
      marshalLog out.log =
        ascii "\x7b\"index\":" ++ appendString index ++
        ascii ",\"source\":" ++
          (ascii "\x7b\"message\":" ++ appendString message ++
            ascii ",\"hostname\":" ++ appendString (env.hostname.getD []) ++
            ascii ",\"@timestamp\":" ++ appendString (stamp env.now) ++ ascii "\x7d") ++
        ascii ",\"type\":" ++ appendString logType ++
        ascii ",\"id\":" ++ appendString (createUuid env.urandom) ++ ascii "\x7d" ∧
      writtenKeys (logFields out.log) =
        [ascii "index", ascii "source", ascii "type", ascii "id"] ∧
      writtenKeys (logSourceFields src') =
        [ascii "message", ascii "hostname", ascii "@timestamp"] ∧
      (needsNoEscape message = true →
        appendString message = ascii "\"" ++ message ++ ascii "\"") ∧
      (needsNoEscape index = true →
        appendString index = ascii "\"" ++ index ++ ascii "\"") ∧
      (needsNoEscape logType = true →
        appendString logType = ascii "\"" ++ logType ++ ascii "\"") := by
  refine ⟨_, _, Log_of_source l env _ _ rfl, rfl, rfl, ?_, writtenKeys_logFields _, ?_,
    appendString_noEscape message, appendString_noEscape index,
    appendString_noEscape logType⟩
  · rw [marshalLog_withGenerated]
    simp [recordText, sourceText, optionalMember]
  · rw [writtenKeys_logSourceFields]
    rfl

theorem SimpleLog_payload_witness :
    needsNoEscape utf8Word = true ∧
    appendString utf8Word = ascii "\"" ++ utf8Word ++ ascii "\"" := by
  obtain ⟨_, _, _, _, _, _, _, _, h, _⟩ :=
    SimpleLog_payload demoClient demoEnv (ascii "WARN") utf8Word (ascii "peacock")
  exact ⟨by decide, h (by decide)⟩

/-- Counterexample to C8 as stated: `SimpleLog("INFO", "", "")` does not fail; the
    transport is called once, with a payload whose index and message are `""`,
    and its answer (`OK`, no error) is returned. -/
theorem empty_message_is_sent :
    sentMessages (demoClient.SimpleLog demoEnv (ascii "INFO") [] []) =
      some [[emptyPayload]] ∧
    (demoClient.SimpleLog demoEnv (ascii "INFO") [] []).map (fun o => (o.r, o.err)) =
      some (0, none) := by
  decide

/-- C8, amended: `Log` does not validate the record.  For every client and every
    record with a source whose message or whose index is the empty string, `Log`
    (and so `Info`, `Warn`, `Error` and `SimpleLog`) still calls the transport
    exactly once, with the payload in which the empty value stands as `""` under
    its key, and returns the answer of the transport. -/
theorem Log_does_not_validate (l : LoglensClient) (env : Env) (log : Log) (src : LogSource)
    (h : log.Source = some src) (hempty : src.Message = [] ∨ log.Index = []) :
    (∃ out,
      l.Log env log = some out ∧
      out.calls = [[LogEntry.mk l.Category (marshalLog out.log)]] ∧
      (out.r, out.err) = l.Scribe.Log [LogEntry.mk l.Category (marshalLog out.log)] ∧
      marshalLog out.log =
        recordText log.Index
          (sourceText src.Message src.Tag src.Type_ src.Username (env.hostname.getD [])
            (stamp env.now))
          log.Type_ (createUuid env.urandom)) ∧
    (appendString src.Message = ascii "\"\"" ∨ appendString log.Index = ascii "\"\"") ∧
    (∃ oi ow oe, l.Info env log = some oi ∧ l.Warn env log = some ow ∧
      l.Error env log = some oe ∧ oi.calls.length = 1 ∧ ow.calls.length = 1 ∧
      oe.calls.length = 1) ∧
    (∀ logType message index : GoString, message = [] ∨ index = [] →
      ∃ os, l.SimpleLog env logType message index = some os ∧ os.calls.length = 1) := by
  refine ⟨⟨_, Log_of_source l env log src h, rfl, rfl, marshalLog_withGenerated _ _ _ _ _⟩,
    hempty.imp (fun hm => by rw [hm]; decide) (fun hi => by rw [hi]; decide), ⟨_, _, _,
      Log_of_source l env { log with Type_ := ascii "INFO" } src h,
      Log_of_source l env { log with Type_ := ascii "WARN" } src h,
      Log_of_source l env { log with Type_ := ascii "ERROR" } src h, rfl, rfl, rfl⟩, ?_⟩
  intro logType message index _
  exact ⟨_, Log_of_source l env _ _ rfl, rfl⟩

theorem Log_does_not_validate_witness :
    ∃ out,
      demoClient.Log demoEnv { demoLog with Index := [] } = some out ∧
      out.calls = [[LogEntry.mk (ascii "loglens") (marshalLog out.log)]] ∧
      (out.r, out.err) = (0, none) := by
  obtain ⟨⟨out, h1, h2, h3, _⟩, _⟩ :=
    Log_does_not_validate demoClient demoEnv { demoLog with Index := [] } demoSource rfl
      (Or.inr rfl)
  exact ⟨out, h1, h2, h3⟩

/-- Counterexample to C9 as stated: when `/dev/urandom` cannot be opened, `Log`
    still calls the transport, with a payload whose id is all zeros and was not
    read from the randomness source, and returns the transport's answer. -/
theorem zero_id_is_sent :
    sentMessages (demoClient.Log noRandomEnv demoLog) = some [[zeroIdPayload]] ∧
    (demoClient.Log noRandomEnv demoLog).map (fun o => (o.log.Id, o.r, o.err)) =
      some (ascii "00000000-0000-0000-0000-000000000000", 0, none) := by
  decide

/-- C9, amended: id generation never fails.  When the randomness source cannot be
    opened the id is the all-zero id; when the read delivers fewer than sixteen
    bytes the bytes that were not read are zero; in every case `Log` on a record
    with a source calls the transport exactly once, with the payload that carries
    this id, and returns the answer of the transport. -/
theorem Log_without_randomness (l : LoglensClient) (env : Env) (log : Log)
    (src : LogSource) (h : log.Source = some src) :
    (env.urandom = none →
      createUuid env.urandom = ascii "00000000-0000-0000-0000-000000000000") ∧
    (∀ data : List Byte, env.urandom = some data → data.length < 16 →
      createUuid env.urandom =
        createUuid (some (data ++ List.replicate (16 - data.length) 0))) ∧
    ∃ out,
      l.Log env log = some out ∧
      out.log.Id = createUuid env.urandom ∧
      out.calls = [[LogEntry.mk l.Category (marshalLog out.log)]] ∧
      (out.r, out.err) = l.Scribe.Log [LogEntry.mk l.Category (marshalLog out.log)] ∧
      marshalLog out.log =
        ascii "\x7b\"index\":" ++ appendString log.Index ++ ascii ",\"source\":" ++
          sourceText src.Message src.Tag src.Type_ src.Username (env.hostname.getD [])
            (stamp env.now) ++
          ascii ",\"type\":" ++ appendString log.Type_ ++
          ascii ",\"id\":" ++ (ascii "\"" ++ createUuid env.urandom ++ ascii "\"") ++
          ascii "\x7d" := by
  refine ⟨?_, ?_, _, Log_of_source l env log src h, rfl, rfl, rfl, ?_⟩
  · intro hu
    rw [hu]
    decide
  · intro data hu hlen
    rw [hu, createUuid_buffer]
    congr 2
    simp only [readUrandom]
    rw [List.take_of_length_le (by omega)]
  · rw [marshalLog_withGenerated, recordText, appendString_createUuid]

theorem Log_without_randomness_witness :
    ∃ out,
      demoClient.Log noRandomEnv demoLog = some out ∧
      out.log.Id = ascii "00000000-0000-0000-0000-000000000000" ∧
      out.calls = [[LogEntry.mk (ascii "loglens") (marshalLog out.log)]] := by
  obtain ⟨h0, _, out, h1, h2, h3, _⟩ :=
    Log_without_randomness demoClient noRandomEnv demoLog demoSource rfl
  exact ⟨out, h1, by rw [h2]; exact h0 rfl, h3⟩

end Loglens
